import Mathlib

/-!
# vumoviemaker: frame construction and colour resolution

A shallow embedding of `makeFrames`, `getColor` and `randomColor` from
`src/moviemaker.js`, and theorems about them.

Modelling conventions.

* A JavaScript number is a `Num`: `NaN`, `+Infinity`, `-Infinity` or a
  rational.  `Num.add`, `Num.sub`, `Num.mul` and `Num.div` give the exact result
  of an operation; the JavaScript operators are `Num.fadd`, `Num.fsub`,
  `Num.fmul` and `Num.fdiv`, which round that result to binary64 (nearest, ties
  to even, overflow to an infinity).  `parseInt` rounds the integer it reads in
  the same way.  The two zeros `+0` and `-0` are identified.
* `randomColor` floors the exact product of the draw and 16777215.
* A destructured numeric field is a `Val`: `undefined` or a number.  The kind
  field is an `Option String` (`none` is `undefined`).
* The two process-wide colour maps and the random generator are explicit state
  (`Env`).  `Math.random()` is the stream `Env.draws`, consumed from index
  `Env.used`.
* A `throw` is `Except.error`.
* Calls to `console` (timers, the day-gap warning, logging) have no effect on
  the result and are left out.
* A row is a `String`; `split` and `parseInt` work on its list of characters.
-/

namespace MovieMaker

/-! ## JavaScript numbers -/

/-- A JavaScript number with exact finite values. -/
inductive Num where
  | nan
  | posInf
  | negInf
  | fin (q : ℚ)
  deriving DecidableEq

namespace Num

/-- Infinity of the given sign (`true` is negative). -/
def inf (negative : Bool) : Num := if negative then negInf else posInf

/-- The exact sum `a + b`, before rounding. -/
def add : Num → Num → Num
  | nan, _ => nan
  | _, nan => nan
  | posInf, negInf => nan
  | negInf, posInf => nan
  | posInf, _ => posInf
  | negInf, _ => negInf
  | _, posInf => posInf
  | _, negInf => negInf
  | fin a, fin b => fin (a + b)

/-- JavaScript unary minus. -/
def neg : Num → Num
  | nan => nan
  | posInf => negInf
  | negInf => posInf
  | fin a => fin (-a)

/-- The exact difference `a - b`, before rounding. -/
def sub (a b : Num) : Num := add a (neg b)

/-- The exact product `a * b`, before rounding. -/
def mul : Num → Num → Num
  | nan, _ => nan
  | _, nan => nan
  | posInf, posInf => posInf
  | posInf, negInf => negInf
  | negInf, posInf => negInf
  | negInf, negInf => posInf
  | posInf, fin b => if b = 0 then nan else inf (decide (b < 0))
  | negInf, fin b => if b = 0 then nan else inf (decide (0 < b))
  | fin a, posInf => if a = 0 then nan else inf (decide (a < 0))
  | fin a, negInf => if a = 0 then nan else inf (decide (0 < a))
  | fin a, fin b => fin (a * b)

/-- The exact quotient `a / b`, before rounding (every zero is `+0`). -/
def div : Num → Num → Num
  | nan, _ => nan
  | _, nan => nan
  | posInf, fin b => inf (decide (b < 0))
  | negInf, fin b => inf (decide (0 ≤ b))
  | fin _, posInf => fin 0
  | fin _, negInf => fin 0
  | fin a, fin b =>
    if b = 0 then (if a = 0 then nan else inf (decide (a < 0))) else fin (a / b)
  | _, _ => nan

/-- JavaScript `Math.round`: the nearest integer, halves rounded up. -/
def round : Num → Num
  | fin a => fin (⌊a + 1 / 2⌋ : ℤ)
  | x => x

/-- JavaScript `a !== b` on numbers: `NaN` differs from everything. -/
def strictNe : Num → Num → Bool
  | nan, _ => true
  | _, nan => true
  | a, b => decide (a ≠ b)

/-- A natural number as a JavaScript number. -/
def ofNat (n : Nat) : Num := fin (n : ℚ)

/-- An integer as a JavaScript number. -/
def ofInt (z : ℤ) : Num := fin (z : ℚ)

end Num

/-- The rational `2 ^ k` for an integer exponent. -/
def pow2 (k : ℤ) : ℚ :=
  if 0 ≤ k then ((2 ^ k.toNat : ℕ) : ℚ) else 1 / ((2 ^ (-k).toNat : ℕ) : ℚ)

/-- The exponent `e` with `2 ^ e ≤ n < 2 ^ (e + 1)` for a natural number
`n > 0`, found by halving at most `fuel` times. -/
def natLog2Aux : Nat → Nat → Nat
  | 0, _ => 0
  | fuel + 1, n => if n < 2 then 0 else natLog2Aux fuel (n / 2) + 1

/-- The exponent `e` with `2 ^ e ≤ n < 2 ^ (e + 1)` for a natural number `n > 0`. -/
def natLog2 (n : Nat) : Nat := natLog2Aux n n

/-- The exponent `e` with `2 ^ e ≤ q < 2 ^ (e + 1)`, for `q > 0`. -/
def floorLog2 (q : ℚ) : ℤ :=
  let k : ℤ := (natLog2 q.num.natAbs : ℤ) - (natLog2 q.den : ℤ)
  if pow2 k ≤ q then k else k - 1

/-- The integer nearest to `q`, a tie going to the even one. -/
def roundHalfEven (q : ℚ) : ℤ :=
  let f := ⌊q⌋
  if q - f < 1 / 2 then f
  else if 1 / 2 < q - f then f + 1
  else if f % 2 = 0 then f else f + 1

/-- The binary64 number nearest to the rational `q`, a tie going to the even
significand and a magnitude of `2 ^ 1024` or more to an infinity: the number an
IEEE 754 operation returns when its exact result is `q`.  An integer of
absolute value at most `2 ^ 53` is a binary64 number and is returned as it is;
otherwise `q` is rounded to 53 significant bits, or to a multiple of
`2 ^ -1074` in the subnormal range. -/
def binary64 (q : ℚ) : Num :=
  if q.den = 1 ∧ q.num.natAbs ≤ 2 ^ 53 then Num.fin q
  else
    let e := floorLog2 |q|
    let p := max (e - 52) (-1074)
    let v := (roundHalfEven (|q| / pow2 p) : ℚ) * pow2 p
    if pow2 1024 ≤ v then (if q < 0 then Num.negInf else Num.posInf)
    else Num.fin (if q < 0 then -v else v)

namespace Num

/-- Rounding of an exact result to binary64. -/
def toBinary64 : Num → Num
  | fin q => binary64 q
  | x => x

/-- JavaScript `a + b` on numbers. -/
def fadd (a b : Num) : Num := (add a b).toBinary64

/-- JavaScript `a - b` on numbers. -/
def fsub (a b : Num) : Num := (sub a b).toBinary64

/-- JavaScript `a * b` on numbers. -/
def fmul (a b : Num) : Num := (mul a b).toBinary64

/-- JavaScript `a / b` on numbers. -/
def fdiv (a b : Num) : Num := (div a b).toBinary64

end Num

/-- A destructured array element of numeric kind: `undefined` or a number. -/
inductive Val where
  | undefined
  | number (n : Num)
  deriving DecidableEq

namespace Val

/-- JavaScript `ToNumber` on `undefined` and numbers. -/
def toNumber : Val → Num
  | undefined => Num.nan
  | number n => n

/-- JavaScript `v === 0`. -/
def isZero (v : Val) : Bool := decide (v = number (Num.fin 0))

/-- An integer as a value. -/
def ofInt (z : ℤ) : Val := number (Num.ofInt z)

end Val

/-! ## Strings: `split(",")`, `parseInt`, `toString(16)`, `padStart` -/

/-- JavaScript `s.split(",")` on the characters of `s`. -/
def splitComma : List Char → List (List Char)
  | [] => [[]]
  | c :: cs =>
    if c.toNat = 44 then [] :: splitComma cs
    else
      match splitComma cs with
      | [] => [[c]]
      | f :: fs => (c :: f) :: fs

/-- The code points that `parseInt` skips at the start of its argument
(ECMAScript WhiteSpace and LineTerminator). -/
def isWhiteSpace (c : Char) : Bool :=
  let n := c.toNat
  (9 ≤ n && n ≤ 13) || n = 32 || n = 160 || n = 5760 || (8192 ≤ n && n ≤ 8202)
    || n = 8232 || n = 8233 || n = 8239 || n = 8287 || n = 12288 || n = 65279

/-- The value of a digit in the given radix (10 or 16). -/
def digitVal (radix : Nat) (c : Char) : Option Nat :=
  let n := c.toNat
  if 48 ≤ n ∧ n ≤ 57 then some (n - 48)
  else if radix = 16 ∧ 97 ≤ n ∧ n ≤ 102 then some (n - 87)
  else if radix = 16 ∧ 65 ≤ n ∧ n ≤ 70 then some (n - 55)
  else none

/-- The value of the longest prefix of digits, `acc` being the value read so
far (`none` when no digit has been read). -/
def parseDigits (radix : Nat) : List Char → Option Nat → Option Nat
  | [], acc => acc
  | c :: cs, acc =>
    match digitVal radix c with
    | none => acc
    | some d => parseDigits radix cs (some (acc.getD 0 * radix + d))

/-- Drops leading white space. -/
def stripWhiteSpace : List Char → List Char
  | [] => []
  | c :: cs => if isWhiteSpace c then stripWhiteSpace cs else c :: cs

/-- Unsigned part of `parseInt`: an optional `0x`/`0X` selects radix 16. -/
def parseUnsigned : List Char → Option Nat
  | c0 :: cx :: cs =>
    if c0.toNat = 48 ∧ (cx.toNat = 120 ∨ cx.toNat = 88) then parseDigits 16 cs none
    else parseDigits 10 (c0 :: cx :: cs) none
  | cs => parseDigits 10 cs none

/-- The mathematical integer read by `parseInt(s)` (no radix argument), `none`
for `NaN`. -/
def parseIntZ (s : List Char) : Option ℤ :=
  match stripWhiteSpace s with
  | [] => none
  | c :: cs =>
    if c.toNat = 45 then (parseUnsigned cs).map (fun n => -(n : ℤ))
    else if c.toNat = 43 then (parseUnsigned cs).map (fun n => (n : ℤ))
    else (parseUnsigned (c :: cs)).map (fun n => (n : ℤ))

/-- JavaScript `parseInt(s)`: the integer read, as a binary64 number. -/
def parseInt (s : List Char) : Num :=
  match parseIntZ s with
  | none => Num.nan
  | some z => binary64 (z : ℚ)

/-- The digits of `n` in base 16, most significant first, lowercase:
`n.toString(16)` for a non-negative integer. -/
def hexDigits (n : Nat) : List Char := Nat.toDigits 16 n

/-- JavaScript `z.toString(16)` for an integer `z`. -/
def toString16 (z : ℤ) : List Char :=
  if z < 0 then '-' :: hexDigits z.natAbs else hexDigits z.natAbs

/-- JavaScript `s.padStart(6, "0")`. -/
def padStart6 (s : List Char) : List Char :=
  List.replicate (6 - s.length) '0' ++ s

/-! ## Colours -/

/-- `randomColor` given the value `r` returned by `Math.random()`. -/
def randomColor (r : ℚ) : String :=
  String.mk ('#' :: padStart6 (toString16 ⌊r * 16777215⌋))

/-- A JavaScript object used as a map from ids to colour strings. -/
abbrev ColorMap := Val → Option String

/-- Assignment `m[k] = c`. -/
def ColorMap.set (m : ColorMap) (k : Val) (c : String) : ColorMap :=
  fun k' => if k' = k then some c else m k'

/-- The mutable state of a run: both colour maps and the random generator. -/
structure Env where
  RULER_COLORS : ColorMap
  KINGDOM_COLORS : ColorMap
  draws : Nat → ℚ
  used : Nat

/-- The literal initial value of `KINGDOM_COLORS`. -/
def initialKingdomColors : ColorMap := fun k =>
  if k = Val.ofInt 5783 then some "#46d2c4"
  else if k = Val.ofInt 5889 then some "#740100"
  else if k = Val.ofInt 5987 then some "#bb46d2"
  else if k = Val.ofInt 5204 then some "#55b6d2"
  else if k = Val.ofInt 6002 then some "#89996b"
  else if k = Val.ofInt 6001 then some "#b58570"
  else if k = Val.ofInt 5913 then some "#014701"
  else if k = Val.ofInt 5999 then some "#81b83a"
  else if k = Val.ofInt 5992 then some "#d6a636"
  else if k = Val.ofInt 6000 then some "#8a6a52"
  else if k = Val.ofInt 5950 then some "#b106a7"
  else if k = Val.ofInt 5410 then some "#f65616"
  else if k = Val.ofInt 5927 then some "#88ced5"
  else none

/-- The state at program start, for a given random stream. -/
def Env.initial (draws : Nat → ℚ) : Env :=
  { RULER_COLORS := fun _ => none
    KINGDOM_COLORS := initialKingdomColors
    draws := draws
    used := 0 }

/-- `RULER_COLORS[ownerId] = randomColor()`. -/
def Env.setRulerRandom (e : Env) (ownerId : Val) : Env :=
  { e with
    RULER_COLORS := e.RULER_COLORS.set ownerId (randomColor (e.draws e.used))
    used := e.used + 1 }

/-- `KINGDOM_COLORS[kingdomId] = randomColor()`. -/
def Env.setKingdomRandom (e : Env) (kingdomId : Val) : Env :=
  { e with
    KINGDOM_COLORS := e.KINGDOM_COLORS.set kingdomId (randomColor (e.draws e.used))
    used := e.used + 1 }

/-- The statement `if (!RULER_COLORS.hasOwnProperty(ownerId)) RULER_COLORS[ownerId] = randomColor();`. -/
def ensureRuler (e : Env) (ownerId : Val) : Env :=
  match e.RULER_COLORS ownerId with
  | none => e.setRulerRandom ownerId
  | some _ => e

/-- The statement
`if (!KINGDOM_COLORS.hasOwnProperty(kingdomId)) KINGDOM_COLORS[kingdomId] = randomColor();`. -/
def ensureKingdom (e : Env) (kingdomId : Val) : Env :=
  match e.KINGDOM_COLORS kingdomId with
  | none => e.setKingdomRandom kingdomId
  | some _ => e

/-- The statement
`if (!RULER_COLORS.hasOwnProperty(ownerId)) RULER_COLORS[ownerId] = KINGDOM_COLORS[kingdomId];`
(it runs after `ensureKingdom`, so `KINGDOM_COLORS[kingdomId]` is a string). -/
def seedRuler (e : Env) (kingdomId ownerId : Val) : Env :=
  match e.RULER_COLORS ownerId, e.KINGDOM_COLORS kingdomId with
  | none, some c => { e with RULER_COLORS := e.RULER_COLORS.set ownerId c }
  | _, _ => e

/-- The function `getColor(kingdomId, ownerId)`: the returned value (`none` is
`undefined`) and the state after the call. -/
def getColor (e : Env) (kingdomId ownerId : Val) : Option String × Env :=
  if kingdomId.isZero then
    let e1 := ensureRuler e ownerId
    (e1.RULER_COLORS ownerId, e1)
  else
    let e1 := ensureKingdom e kingdomId
    if ownerId.isZero then (e1.KINGDOM_COLORS kingdomId, e1)
    else
      let e2 := seedRuler e1 kingdomId ownerId
      (e2.RULER_COLORS ownerId, e2)

/-- Successive `getColor` calls with the given arguments. -/
def runCalls (e : Env) : List (Val × Val) → Env
  | [] => e
  | (k, o) :: rest => runCalls (getColor e k o).2 rest

/-- The map entry that `getColor(k, o)` returns. -/
def colorSource (e : Env) (k o : Val) : Option String :=
  if k.isZero then e.RULER_COLORS o
  else if o.isZero then e.KINGDOM_COLORS k
  else e.RULER_COLORS o

/-- The states a run can reach: the initial maps, then any `getColor` calls. -/
inductive Reachable : Env → Prop where
  | initial (draws : Nat → ℚ) : Reachable (Env.initial draws)
  | call (e : Env) (k o : Val) : Reachable e → Reachable (getColor e k o).2

/-! ## Frames -/

/-- The world descriptor `{id, era, map, size}`. -/
structure World where
  id : Num
  era : Num
  map : Num
  size : Num

/-- A city record pushed by `makeFrames`. -/
structure City where
  x : Num
  y : Num
  radius : Num
  kd : Val
  ownerId : Val
  color : Option String
  deriving DecidableEq

/-- An army record pushed by `makeFrames`. -/
structure Army where
  x : Num
  y : Num
  color : Option String
  deriving DecidableEq

/-- One frame `{cities, armies}`. -/
structure Frame where
  cities : List City
  armies : List Army
  deriving DecidableEq

/-- The frame literal `{ cities: [], armies: [] }`. -/
def Frame.empty : Frame := { cities := [], armies := [] }

/-- The constant `CANVAS_SIZE`. -/
def CANVAS_SIZE : Num := Num.fin 1000

/-- The table `colonySize`. -/
def colonySize : List Nat := [10, 10, 20, 30, 40, 50, 60, 70, 75, 75]

/-- The lookup `colonySize[size]`: `undefined` unless `size` is one of the
integers 0 to 9. -/
def colonySizeAt (size : Val) : Val :=
  match size with
  | Val.number (Num.fin q) =>
    if q.den = 1 ∧ 0 ≤ q.num then
      match colonySize[q.num.toNat]? with
      | some n => Val.number (Num.ofNat n)
      | none => Val.undefined
    else Val.undefined
  | _ => Val.undefined

/-- The eight destructured elements of
`row.split(",").map((val, index) => index != 6 && index < 8 ? parseInt(val) : val)`. -/
structure Fields where
  day : Val
  X : Val
  Y : Val
  kingdomId : Val
  worldId : Val
  size : Val
  type : Option String
  ownerId : Val

/-- Element `i` of the mapped array for a numeric position: `parseInt` of the
piece, `undefined` when the row has no such piece. -/
def numField (pieces : List (List Char)) (i : Nat) : Val :=
  match pieces[i]? with
  | none => Val.undefined
  | some s => Val.number (parseInt s)

/-- Element `i` of the mapped array for the text position: the piece itself. -/
def textField (pieces : List (List Char)) (i : Nat) : Option String :=
  (pieces[i]?).map String.mk

/-- Splitting, mapping and destructuring of one row. -/
def parseRow (row : String) : Fields :=
  let pieces := splitComma row.data
  { day := numField pieces 0
    X := numField pieces 1
    Y := numField pieces 2
    kingdomId := numField pieces 3
    worldId := numField pieces 4
    size := numField pieces 5
    type := textField pieces 6
    ownerId := numField pieces 7 }

/-- JavaScript `a !== b` on values that are `undefined` or numbers. -/
def Val.strictNe : Val → Val → Bool
  | Val.undefined, Val.undefined => false
  | Val.number a, Val.number b => Num.strictNe a b
  | _, _ => true

/-- The image coordinate `Math.round((c + world.size) * mapScale)` of a city,
the sum and the product each rounded by `fl`. -/
def cityCoordWith (fl : Num → Num) (size mapScale : Num) (c : Val) : Num :=
  Num.round (fl (Num.mul (fl (Num.add c.toNumber size)) mapScale))

/-- The image coordinate of a city over exact rational arithmetic: no rounding
of the sum and the product. -/
def cityCoord (size mapScale : Num) (c : Val) : Num :=
  cityCoordWith (fun n => n) size mapScale c

/-- The image coordinate `(c + world.size) * mapScale` of an army. -/
def armyCoord (size mapScale : Num) (c : Val) : Num :=
  Num.fmul (Num.fadd c.toNumber size) mapScale

/-- The city literal built for a row, given the colour returned by `getColor`. -/
def mkCity (world : World) (mapScale : Num) (f : Fields) (color : Option String) : City :=
  { x := cityCoordWith Num.toBinary64 world.size mapScale f.X
    y := cityCoordWith Num.toBinary64 world.size mapScale f.Y
    radius := Num.fmul (colonySizeAt f.size).toNumber mapScale
    kd := f.kingdomId
    ownerId := f.ownerId
    color := color }

/-- The army literal built for a row, given the colour returned by `getColor`. -/
def mkArmy (world : World) (mapScale : Num) (f : Fields) (color : Option String) : Army :=
  { x := armyCoord world.size mapScale f.X
    y := armyCoord world.size mapScale f.Y
    color := color }

/-- Replaces element `i` of a list by its image under `g`. -/
def modifyNth {α : Type} (g : α → α) : List α → Nat → List α
  | [], _ => []
  | a :: as, 0 => g a :: as
  | a :: as, i + 1 => a :: modifyNth g as i

/-- The variables mutated by the loop of `makeFrames`. -/
structure LoopState where
  frames : List Frame
  frame : Nat
  currentDay : Val
  env : Env

/-- The part of the loop body after the day check: the row's entity is pushed
onto `frames[frame]`. -/
def pushEntity (world : World) (mapScale : Num) (f : Fields) (st : LoopState) : LoopState :=
  if f.type = some "city" then
    let r := getColor st.env f.kingdomId f.ownerId
    { st with
      frames := modifyNth
        (fun fr => { fr with cities := fr.cities ++ [mkCity world mapScale f r.1] })
        st.frames st.frame
      env := r.2 }
  else if f.type = some "army" then
    let r := getColor st.env f.kingdomId f.ownerId
    { st with
      frames := modifyNth
        (fun fr => { fr with armies := fr.armies ++ [mkArmy world mapScale f r.1] })
        st.frames st.frame
      env := r.2 }
  else st

/-- The loop `for (const row of rows)` of `makeFrames`. -/
def loop (TEST : Bool) (world : World) (mapScale : Num) : List String → LoopState → LoopState
  | [], st => st
  | row :: rest, st =>
    let f := parseRow row
    if Val.strictNe f.day st.currentDay then
      if TEST then st
      else
        loop TEST world mapScale rest
          (pushEntity world mapScale f
            { st with
              frames := st.frames ++ [Frame.empty]
              frame := st.frames.length
              currentDay := f.day })
    else loop TEST world mapScale rest (pushEntity world mapScale f st)

/-- The errors raised by `makeFrames`. -/
inductive MakeFramesError where
  /-- `rows[0]` is `undefined`: `rows[0].split` raises a `TypeError`. -/
  | noRows
  /-- The error thrown by the final check on `frames.length`. -/
  | frameCount (length : Nat) (dayStart dayEnd : Num)
  deriving DecidableEq

/-- The function `makeFrames(rows, world)`, `TEST` being the global flag: the
returned frames or the error raised, and the state after the call. -/
def makeFrames (TEST : Bool) (rows : List String) (world : World) (env : Env) :
    Except MakeFramesError (List Frame) × Env :=
  match rows with
  | [] => (Except.error MakeFramesError.noRows, env)
  | first :: more =>
    let mapSize := Num.fmul world.size (Num.fin 2)
    let mapScale := Num.fdiv CANVAS_SIZE mapSize
    let firstRow := splitComma first.data
    let lastRow := splitComma ((first :: more).getLast (List.cons_ne_nil first more)).data
    let dayStart := parseInt (firstRow.headD [])
    let dayEnd := if TEST then dayStart else parseInt (lastRow.headD [])
    let st := loop TEST world mapScale (first :: more)
      { frames := [Frame.empty], frame := 0, currentDay := Val.number dayStart, env := env }
    if Num.strictNe (Num.ofNat st.frames.length)
        (Num.fadd (Num.fsub dayEnd dayStart) (Num.fin 1)) then
      (Except.error (MakeFramesError.frameCount st.frames.length dayStart dayEnd), st.env)
    else (Except.ok st.frames, st.env)

/-! ## Definitions used to state the properties -/

/-- The number written by a string of hexadecimal digits. -/
def hexValue (acc : Nat) (s : List Char) : Nat :=
  s.foldl (fun a c => a * 16 + (digitVal 16 c).getD 0) acc

/-- The kind of a well-formed row. -/
inductive Kind where
  | city
  | army
  deriving DecidableEq

/-- The text of a kind. -/
def Kind.text : Kind → String
  | Kind.city => "city"
  | Kind.army => "army"

/-- A well-formed row read as an event: eight fields, the numeric ones
integers, the kind `city` or `army`. -/
structure Event where
  day : ℤ
  x : ℤ
  y : ℤ
  territoryId : ℤ
  worldId : ℤ
  sizeClass : ℤ
  kind : Kind
  ownerId : ℤ
  deriving DecidableEq

/-- The kind written by a piece of a row, if it is one. -/
def decodeKind (t : List Char) : Option Kind :=
  if String.mk t = "city" then some Kind.city
  else if String.mk t = "army" then some Kind.army
  else none

/-- The event written by a row: defined exactly when the row splits on `,`
into 8 pieces, each numeric piece is read by `parseInt` as an integer, and the
kind is `city` or `army`. -/
def decodeRow (row : String) : Option Event :=
  match splitComma row.data with
  | [d, x, y, k, w, s, t, o] =>
    (parseIntZ d).bind fun d =>
    (parseIntZ x).bind fun x =>
    (parseIntZ y).bind fun y =>
    (parseIntZ k).bind fun k =>
    (parseIntZ w).bind fun w =>
    (parseIntZ s).bind fun s =>
    (decodeKind t).bind fun t =>
    (parseIntZ o).bind fun o =>
    some { day := d, x := x, y := y, territoryId := k, worldId := w, sizeClass := s,
           kind := t, ownerId := o }
  | _ => none

/-- A feed of well-formed rows and the events it writes. -/
def Decodes (rows : List String) (events : List Event) : Prop :=
  List.Forall₂ (fun row ev => decodeRow row = some ev) rows events

/-- The day of an event is below `2 ^ 52` in absolute value: every such day,
every difference of two such days and that difference plus 1 are binary64
numbers. -/
def Event.SafeDay (ev : Event) : Prop := ev.day.natAbs < 2 ^ 52

/-- Every numeric field of an event is below `2 ^ 52` in absolute value, hence
a binary64 number. -/
def Event.Safe (ev : Event) : Prop :=
  ev.day.natAbs < 2 ^ 52 ∧ ev.x.natAbs < 2 ^ 52 ∧ ev.y.natAbs < 2 ^ 52
    ∧ ev.territoryId.natAbs < 2 ^ 52 ∧ ev.worldId.natAbs < 2 ^ 52
    ∧ ev.sizeClass.natAbs < 2 ^ 52 ∧ ev.ownerId.natAbs < 2 ^ 52

/-- The fields that the loop destructures from a well-formed row. -/
def Event.toFields (ev : Event) : Fields :=
  { day := Val.ofInt ev.day
    X := Val.ofInt ev.x
    Y := Val.ofInt ev.y
    kingdomId := Val.ofInt ev.territoryId
    worldId := Val.ofInt ev.worldId
    size := Val.ofInt ev.sizeClass
    type := some ev.kind.text
    ownerId := Val.ofInt ev.ownerId }

/-- The scale `CANVAS_SIZE / (world.size * 2)`. -/
def scaleOf (world : World) : Num :=
  Num.fdiv CANVAS_SIZE (Num.fmul world.size (Num.fin 2))

/-- The radius table of the specification: the colony size of each of the ten
size classes, `NaN` for any other size class. -/
def specColonySize (sizeClass : ℤ) : Num :=
  if sizeClass = 0 then Num.fin 10
  else if sizeClass = 1 then Num.fin 10
  else if sizeClass = 2 then Num.fin 20
  else if sizeClass = 3 then Num.fin 30
  else if sizeClass = 4 then Num.fin 40
  else if sizeClass = 5 then Num.fin 50
  else if sizeClass = 6 then Num.fin 60
  else if sizeClass = 7 then Num.fin 70
  else if sizeClass = 8 then Num.fin 75
  else if sizeClass = 9 then Num.fin 75
  else Num.nan

/-- The colours returned by `getColor(territoryId, ownerId)` called once per
event, in feed order, from the state `env`. -/
def colorTrace (env : Env) : List Event → List (Option String)
  | [] => []
  | ev :: rest =>
    (getColor env (Val.ofInt ev.territoryId) (Val.ofInt ev.ownerId)).1 ::
      colorTrace (getColor env (Val.ofInt ev.territoryId) (Val.ofInt ev.ownerId)).2 rest

/-- The city of the specification for an event and its colour:
`{x: round((X+size)*scale), y: round((Y+size)*scale), radius: colonySize[sizeClass]*scale,
kd, ownerId, color}`. -/
def specCity (world : World) (ev : Event) (color : Option String) : City :=
  { x := Num.round (Num.fmul (Num.fadd (Num.ofInt ev.x) world.size) (scaleOf world))
    y := Num.round (Num.fmul (Num.fadd (Num.ofInt ev.y) world.size) (scaleOf world))
    radius := Num.fmul (specColonySize ev.sizeClass) (scaleOf world)
    kd := Val.ofInt ev.territoryId
    ownerId := Val.ofInt ev.ownerId
    color := color }

/-- The army of the specification for an event and its colour:
`{x: (X+size)*scale, y: (Y+size)*scale, color}`, not rounded. -/
def specArmy (world : World) (ev : Event) (color : Option String) : Army :=
  { x := Num.fmul (Num.fadd (Num.ofInt ev.x) world.size) (scaleOf world)
    y := Num.fmul (Num.fadd (Num.ofInt ev.y) world.size) (scaleOf world)
    color := color }

/-- The frame of the specification for a list of coloured events: its city
events as cities and its army events as armies, each list in feed order. -/
def specFrame (world : World) (ents : List (Event × Option String)) : Frame :=
  { cities := (ents.filter (fun p => decide (p.1.kind = Kind.city))).map
      (fun p => specCity world p.1 p.2)
    armies := (ents.filter (fun p => decide (p.1.kind = Kind.army))).map
      (fun p => specArmy world p.1 p.2) }

/-- The coloured events of day `d`. -/
def onDay (d : ℤ) (ents : List (Event × Option String)) : List (Event × Option String) :=
  ents.filter (fun p => decide (p.1.day = d))

/-- Two frames merged: cities after cities, armies after armies. -/
def Frame.append (a b : Frame) : Frame :=
  { cities := a.cities ++ b.cities, armies := a.armies ++ b.armies }

/-- The number of day changes met when reading `days` after day `d`. -/
def dayChanges : ℤ → List ℤ → Nat
  | _, [] => 0
  | d, d' :: rest => (if d' = d then 0 else 1) + dayChanges d' rest

/-- Days that never decrease, read after day `d`. -/
def Ascending (d : ℤ) (days : List ℤ) : Prop := List.Chain (fun a b => a ≤ b) d days

/-- Days that stay or advance by one, read after day `d`. -/
def GapFree (d : ℤ) (days : List ℤ) : Prop := List.Chain (fun a b => b = a ∨ b = a + 1) d days

deriving instance DecidableEq for Except

/-! ## Example feeds -/

/-- The world of the end-to-end example: `world=1 era=1 map=1 size=100`. -/
def exampleWorld : World :=
  { id := Num.fin 1, era := Num.fin 1, map := Num.fin 1, size := Num.fin 100 }

/-- The state at program start with a generator that always draws `1/2`, so
that every random colour is `#7fffff`. -/
def exampleEnv : Env := Env.initial (fun _ => 1 / 2)

/-- The feed of the end-to-end example: two rows on day 5. -/
def exampleRows : List String := ["5,0,0,10,1,0,city,0", "5,50,50,10,1,0,army,7"]

/-- The events written by `exampleRows`. -/
def exampleEvents : List Event :=
  [ { day := 5, x := 0, y := 0, territoryId := 10, worldId := 1, sizeClass := 0,
      kind := Kind.city, ownerId := 0 },
    { day := 5, x := 50, y := 50, territoryId := 10, worldId := 1, sizeClass := 0,
      kind := Kind.army, ownerId := 7 } ]

/-- A feed spanning days 5 to 9, one day after the other. -/
def spanRows : List String :=
  ["5,0,0,10,1,0,city,0", "5,50,50,10,1,0,army,7", "6,0,0,10,1,0,city,7",
   "7,0,0,10,1,0,city,7", "8,0,0,10,1,0,city,7", "9,0,0,10,1,0,city,7"]

/-- The events written by `spanRows`. -/
def spanEvents : List Event :=
  [ { day := 5, x := 0, y := 0, territoryId := 10, worldId := 1, sizeClass := 0,
      kind := Kind.city, ownerId := 0 },
    { day := 5, x := 50, y := 50, territoryId := 10, worldId := 1, sizeClass := 0,
      kind := Kind.army, ownerId := 7 },
    { day := 6, x := 0, y := 0, territoryId := 10, worldId := 1, sizeClass := 0,
      kind := Kind.city, ownerId := 7 },
    { day := 7, x := 0, y := 0, territoryId := 10, worldId := 1, sizeClass := 0,
      kind := Kind.city, ownerId := 7 },
    { day := 8, x := 0, y := 0, territoryId := 10, worldId := 1, sizeClass := 0,
      kind := Kind.city, ownerId := 7 },
    { day := 9, x := 0, y := 0, territoryId := 10, worldId := 1, sizeClass := 0,
      kind := Kind.city, ownerId := 7 } ]

/-- A feed that skips day 6. -/
def gapRows : List String := ["5,0,0,10,1,0,city,0", "7,0,0,10,1,0,city,0"]

/-- The events written by `gapRows`. -/
def gapEvents : List Event :=
  [ { day := 5, x := 0, y := 0, territoryId := 10, worldId := 1, sizeClass := 0,
      kind := Kind.city, ownerId := 0 },
    { day := 7, x := 0, y := 0, territoryId := 10, worldId := 1, sizeClass := 0,
      kind := Kind.city, ownerId := 0 } ]

/-- A world of size 152, where `1000 / 304` is not a binary64 number. -/
def roundingWorld : World :=
  { id := Num.fin 1, era := Num.fin 1, map := Num.fin 1, size := Num.fin 152 }

/-- A feed for `roundingWorld`: a city at `(-133, 133)` and an army at `(1, 1)`. -/
def roundingRows : List String := ["5,-133,133,10,1,0,city,0", "5,1,1,10,1,0,army,7"]

/-- The events written by `roundingRows`. -/
def roundingEvents : List Event :=
  [ { day := 5, x := -133, y := 133, territoryId := 10, worldId := 1, sizeClass := 0,
      kind := Kind.city, ownerId := 0 },
    { day := 5, x := 1, y := 1, territoryId := 10, worldId := 1, sizeClass := 0,
      kind := Kind.army, ownerId := 7 } ]

/-- A feed whose days are written `2^53`, `2^53 + 1`, `2^53 + 2`. -/
def bigRows : List String :=
  ["9007199254740992,0,0,10,1,0,city,0", "9007199254740993,0,0,10,1,0,city,0",
   "9007199254740994,0,0,10,1,0,city,0"]

/-- The events written by `bigRows`. -/
def bigEvents : List Event :=
  [ { day := 9007199254740992, x := 0, y := 0, territoryId := 10, worldId := 1, sizeClass := 0,
      kind := Kind.city, ownerId := 0 },
    { day := 9007199254740993, x := 0, y := 0, territoryId := 10, worldId := 1, sizeClass := 0,
      kind := Kind.city, ownerId := 0 },
    { day := 9007199254740994, x := 0, y := 0, territoryId := 10, worldId := 1, sizeClass := 0,
      kind := Kind.city, ownerId := 0 } ]

/-- A feed whose days are written `2^53 - 1` and `2^53 + 1`: it skips `2^53`. -/
def bigGapRows : List String :=
  ["9007199254740991,0,0,10,1,0,city,0", "9007199254740993,50,50,10,1,0,city,0"]

/-- The events written by `bigGapRows`. -/
def bigGapEvents : List Event :=
  [ { day := 9007199254740991, x := 0, y := 0, territoryId := 10, worldId := 1, sizeClass := 0,
      kind := Kind.city, ownerId := 0 },
    { day := 9007199254740993, x := 50, y := 50, territoryId := 10, worldId := 1,
      sizeClass := 0, kind := Kind.city, ownerId := 0 } ]

/-- A feed whose days are written `2^53` and `2^53 + 1`. -/
def bigPairRows : List String :=
  ["9007199254740992,0,0,10,1,0,city,0", "9007199254740993,50,50,10,1,0,city,0"]

/-- The events written by `bigPairRows`. -/
def bigPairEvents : List Event :=
  [ { day := 9007199254740992, x := 0, y := 0, territoryId := 10, worldId := 1, sizeClass := 0,
      kind := Kind.city, ownerId := 0 },
    { day := 9007199254740993, x := 50, y := 50, territoryId := 10, worldId := 1,
      sizeClass := 0, kind := Kind.city, ownerId := 0 } ]

/-- A truncated-run feed whose days are written `2^53` and `2^53 + 1`. -/
def bigTruncatedRows : List String :=
  ["9007199254740992,0,0,10,1,0,city,0", "9007199254740993,50,50,10,1,0,army,7"]

/-- The events written by `bigTruncatedRows`. -/
def bigTruncatedEvents : List Event :=
  [ { day := 9007199254740992, x := 0, y := 0, territoryId := 10, worldId := 1, sizeClass := 0,
      kind := Kind.city, ownerId := 0 },
    { day := 9007199254740993, x := 50, y := 50, territoryId := 10, worldId := 1,
      sizeClass := 0, kind := Kind.army, ownerId := 7 } ]

/-! # Theorems -/

/-! ## Lemmas on the colour maps -/

theorem ensureRuler_kingdom (e : Env) (o : Val) :
    (ensureRuler e o).KINGDOM_COLORS = e.KINGDOM_COLORS := by
  unfold ensureRuler; split <;> rfl

theorem ensureKingdom_ruler (e : Env) (k : Val) :
    (ensureKingdom e k).RULER_COLORS = e.RULER_COLORS := by
  unfold ensureKingdom; split <;> rfl

theorem seedRuler_kingdom (e : Env) (k o : Val) :
    (seedRuler e k o).KINGDOM_COLORS = e.KINGDOM_COLORS := by
  unfold seedRuler; split <;> rfl

theorem ensureRuler_mono (e : Env) (o id : Val) (c : String)
    (h : e.RULER_COLORS id = some c) : (ensureRuler e o).RULER_COLORS id = some c := by
  unfold ensureRuler
  split
  · rename_i hn
    have hne : id ≠ o := by rintro rfl; rw [h] at hn; cases hn
    simp [Env.setRulerRandom, ColorMap.set, hne, h]
  · exact h

theorem ensureKingdom_mono (e : Env) (k id : Val) (c : String)
    (h : e.KINGDOM_COLORS id = some c) : (ensureKingdom e k).KINGDOM_COLORS id = some c := by
  unfold ensureKingdom
  split
  · rename_i hn
    have hne : id ≠ k := by rintro rfl; rw [h] at hn; cases hn
    simp [Env.setKingdomRandom, ColorMap.set, hne, h]
  · exact h

theorem seedRuler_mono (e : Env) (k o id : Val) (c : String)
    (h : e.RULER_COLORS id = some c) : (seedRuler e k o).RULER_COLORS id = some c := by
  unfold seedRuler
  split
  · rename_i hn _
    have hne : id ≠ o := by rintro rfl; rw [h] at hn; cases hn
    simp [ColorMap.set, hne, h]
  · exact h

theorem ensureRuler_isSome (e : Env) (o : Val) :
    ∃ c, (ensureRuler e o).RULER_COLORS o = some c := by
  unfold ensureRuler
  split
  · exact ⟨randomColor (e.draws e.used), by simp [Env.setRulerRandom, ColorMap.set]⟩
  · rename_i c hc; exact ⟨c, hc⟩

theorem ensureKingdom_isSome (e : Env) (k : Val) :
    ∃ c, (ensureKingdom e k).KINGDOM_COLORS k = some c := by
  unfold ensureKingdom
  split
  · exact ⟨randomColor (e.draws e.used), by simp [Env.setKingdomRandom, ColorMap.set]⟩
  · rename_i c hc; exact ⟨c, hc⟩

theorem seedRuler_isSome (e : Env) (k o : Val) (c : String)
    (hk : e.KINGDOM_COLORS k = some c) : ∃ c', (seedRuler e k o).RULER_COLORS o = some c' := by
  unfold seedRuler
  split
  · rename_i c0 _ _
    exact ⟨c0, by simp [ColorMap.set]⟩
  · rename_i hno
    cases hr : e.RULER_COLORS o with
    | none => exact absurd hk (hno c hr)
    | some c' => exact ⟨c', rfl⟩

theorem getColor_ruler_mono (e : Env) (k o id : Val) (c : String)
    (h : e.RULER_COLORS id = some c) : (getColor e k o).2.RULER_COLORS id = some c := by
  unfold getColor
  split
  · exact ensureRuler_mono e o id c h
  · split
    · simpa [ensureKingdom_ruler] using h
    · exact seedRuler_mono _ k o id c (by simpa [ensureKingdom_ruler] using h)

theorem getColor_kingdom_mono (e : Env) (k o id : Val) (c : String)
    (h : e.KINGDOM_COLORS id = some c) : (getColor e k o).2.KINGDOM_COLORS id = some c := by
  unfold getColor
  split
  · simpa [ensureRuler_kingdom] using h
  · split
    · exact ensureKingdom_mono e k id c h
    · simpa [seedRuler_kingdom] using ensureKingdom_mono e k id c h

theorem colorSource_mono (e : Env) (k o k' o' : Val) (c : String)
    (h : colorSource e k o = some c) : colorSource (getColor e k' o').2 k o = some c := by
  unfold colorSource at h ⊢
  split
  · rename_i hk; rw [if_pos hk] at h; exact getColor_ruler_mono e k' o' o c h
  · rename_i hk
    rw [if_neg hk] at h
    split
    · rename_i ho; rw [if_pos ho] at h; exact getColor_kingdom_mono e k' o' k c h
    · rename_i ho; rw [if_neg ho] at h; exact getColor_ruler_mono e k' o' o c h

theorem getColor_fst_eq_source (e : Env) (k o : Val) :
    (getColor e k o).1 = colorSource (getColor e k o).2 k o := by
  unfold colorSource
  unfold getColor
  split
  · rfl
  · split
    · rfl
    · rfl

theorem getColor_fst_isSome (e : Env) (k o : Val) : ∃ c, (getColor e k o).1 = some c := by
  unfold getColor
  split
  · exact ensureRuler_isSome e o
  · split
    · exact ensureKingdom_isSome e k
    · obtain ⟨c, hc⟩ := ensureKingdom_isSome e k
      exact seedRuler_isSome _ k o c hc

theorem getColor_of_source (e : Env) (k o : Val) (c : String)
    (h : colorSource e k o = some c) : (getColor e k o).1 = some c := by
  rw [getColor_fst_eq_source]
  exact colorSource_mono e k o k o c h

theorem colorSource_runCalls (calls : List (Val × Val)) (e : Env) (k o : Val) (c : String)
    (h : colorSource e k o = some c) : colorSource (runCalls e calls) k o = some c := by
  induction calls generalizing e with
  | nil => exact h
  | cons p rest ih =>
    obtain ⟨k', o'⟩ := p
    exact ih _ (colorSource_mono e k o k' o' c h)

/-- C3: colour determinism. Two calls `getColor(k, o)` of one run return the
same colour, whatever the initial maps, the random stream and the calls made in
between; and no `getColor` call changes an entry already present in
`RULER_COLORS` or `KINGDOM_COLORS`. -/
theorem getColor_deterministic (e : Env) (k o : Val) (calls : List (Val × Val)) :
    (getColor (runCalls (getColor e k o).2 calls) k o).1 = (getColor e k o).1
    ∧ (∀ (e' : Env) (k' o' id : Val) (c : String),
        (e'.RULER_COLORS id = some c → (getColor e' k' o').2.RULER_COLORS id = some c)
        ∧ (e'.KINGDOM_COLORS id = some c → (getColor e' k' o').2.KINGDOM_COLORS id = some c)) := by
  refine ⟨?_, fun e' k' o' id c =>
    ⟨getColor_ruler_mono e' k' o' id c, getColor_kingdom_mono e' k' o' id c⟩⟩
  obtain ⟨c, hc⟩ := getColor_fst_isSome e k o
  have hs : colorSource (getColor e k o).2 k o = some c := by
    rw [← getColor_fst_eq_source]; exact hc
  rw [hc]
  exact getColor_of_source _ k o c (colorSource_runCalls calls _ k o c hs)

theorem isZero_zero : (Val.number (Num.fin 0)).isZero = true := by
  simp [Val.isZero]

theorem isZero_eq_false_of_ne (k : Val) (h : k ≠ Val.number (Num.fin 0)) : k.isZero = false := by
  simp [Val.isZero, h]

theorem eq_zero_of_isZero (k : Val) (h : k.isZero = true) : k = Val.number (Num.fin 0) := by
  simpa [Val.isZero] using h

theorem ensureKingdom_of_some (e : Env) (k : Val) (c : String)
    (h : e.KINGDOM_COLORS k = some c) : ensureKingdom e k = e := by
  unfold ensureKingdom; rw [h]

theorem ensureKingdom_of_none (e : Env) (k : Val)
    (h : e.KINGDOM_COLORS k = none) : ensureKingdom e k = e.setKingdomRandom k := by
  unfold ensureKingdom; rw [h]

theorem initialKingdomColors_zero : initialKingdomColors (Val.number (Num.fin 0)) = none := by
  decide!

theorem getColor_kingdom_zero (e : Env) (k o : Val)
    (h : e.KINGDOM_COLORS (Val.number (Num.fin 0)) = none) :
    (getColor e k o).2.KINGDOM_COLORS (Val.number (Num.fin 0)) = none := by
  unfold getColor
  split
  · simpa [ensureRuler_kingdom] using h
  · rename_i hk
    have hne : Val.number (Num.fin 0) ≠ k := by
      rintro rfl; exact hk isZero_zero
    have h1 : (ensureKingdom e k).KINGDOM_COLORS (Val.number (Num.fin 0)) = none := by
      unfold ensureKingdom
      split
      · simp [Env.setKingdomRandom, ColorMap.set, hne, h]
      · exact h
    split
    · exact h1
    · simpa [seedRuler_kingdom] using h1

theorem reachable_kingdom_zero (e : Env) (h : Reachable e) :
    e.KINGDOM_COLORS (Val.number (Num.fin 0)) = none := by
  induction h with
  | initial draws => exact initialKingdomColors_zero
  | call e k o _ ih => exact getColor_kingdom_zero e k o ih

/-- C6: new-ruler seeding. In a state reachable from the initial maps, when
`kingdomId` has the colour `c` in `KINGDOM_COLORS` and `ownerId` has no entry in
`RULER_COLORS`, `getColor(kingdomId, ownerId)` returns `c`, stores `c` as
`RULER_COLORS[ownerId]` when `ownerId` is not 0, draws no random colour and
leaves `KINGDOM_COLORS` as it was. -/
theorem getColor_seeds_new_ruler (e : Env) (k o : Val) (c : String)
    (hr : Reachable e) (hk : e.KINGDOM_COLORS k = some c) (ho : e.RULER_COLORS o = none) :
    (getColor e k o).1 = some c
    ∧ (o ≠ Val.number (Num.fin 0) → (getColor e k o).2.RULER_COLORS o = some c)
    ∧ (getColor e k o).2.used = e.used
    ∧ (getColor e k o).2.KINGDOM_COLORS = e.KINGDOM_COLORS := by
  have hk0 : k.isZero = false := by
    cases hz : k.isZero with
    | false => rfl
    | true =>
      have := eq_zero_of_isZero k hz
      subst this
      rw [reachable_kingdom_zero e hr] at hk
      cases hk
  have he : ensureKingdom e k = e := ensureKingdom_of_some e k c hk
  have hs : seedRuler e k o = { e with RULER_COLORS := e.RULER_COLORS.set o c } := by
    unfold seedRuler; rw [ho, hk]
  unfold getColor
  rw [hk0]
  simp only [Bool.false_eq_true, if_false, he]
  cases hz : o.isZero with
  | true =>
    refine ⟨by simpa using hk, ?_, by simp, by simp⟩
    intro hne
    exact absurd (eq_zero_of_isZero o hz) hne
  | false =>
    simp [hs, ColorMap.set]

/-- C6 at a concrete state: the initial maps, kingdom 5783, owner 7. -/
theorem getColor_seeds_new_ruler_witness :
    (getColor (Env.initial (fun _ => 0)) (Val.ofInt 5783) (Val.ofInt 7)).1 = some "#46d2c4"
    ∧ (Val.ofInt 7 ≠ Val.number (Num.fin 0) →
        (getColor (Env.initial (fun _ => 0)) (Val.ofInt 5783) (Val.ofInt 7)).2.RULER_COLORS
          (Val.ofInt 7) = some "#46d2c4")
    ∧ (getColor (Env.initial (fun _ => 0)) (Val.ofInt 5783) (Val.ofInt 7)).2.used
        = (Env.initial (fun _ => 0)).used
    ∧ (getColor (Env.initial (fun _ => 0)) (Val.ofInt 5783) (Val.ofInt 7)).2.KINGDOM_COLORS
        = (Env.initial (fun _ => 0)).KINGDOM_COLORS :=
  getColor_seeds_new_ruler (Env.initial (fun _ => 0)) (Val.ofInt 5783) (Val.ofInt 7) "#46d2c4"
    (Reachable.initial _) (by decide!) (by decide!)

/-- C7: for a kingdom id other than 0, `getColor(kingdomId, 0)` returns the
colour that `KINGDOM_COLORS` holds for `kingdomId` after the call, which is the
existing entry when there is one and the freshly drawn colour otherwise, and
`RULER_COLORS` is unchanged. -/
theorem getColor_unclaimed (e : Env) (k : Val) (hk : k ≠ Val.number (Num.fin 0)) :
    (getColor e k (Val.number (Num.fin 0))).1
        = (getColor e k (Val.number (Num.fin 0))).2.KINGDOM_COLORS k
    ∧ (∀ c, e.KINGDOM_COLORS k = some c → (getColor e k (Val.number (Num.fin 0))).1 = some c)
    ∧ (e.KINGDOM_COLORS k = none →
        (getColor e k (Val.number (Num.fin 0))).1 = some (randomColor (e.draws e.used)))
    ∧ (getColor e k (Val.number (Num.fin 0))).2.RULER_COLORS = e.RULER_COLORS := by
  have hk0 : k.isZero = false := isZero_eq_false_of_ne k hk
  unfold getColor
  rw [hk0, isZero_zero]
  simp only [Bool.false_eq_true, if_false, if_true]
  refine ⟨trivial, ?_, ?_, ensureKingdom_ruler e k⟩
  · intro c hc
    rw [ensureKingdom_of_some e k c hc]; exact hc
  · intro hn
    rw [ensureKingdom_of_none e k hn]
    simp [Env.setKingdomRandom, ColorMap.set]

/-- C7 at a concrete state: the initial maps and the unseen kingdom 10. -/
theorem getColor_unclaimed_witness :
    (getColor (Env.initial (fun _ => 1 / 2)) (Val.ofInt 10) (Val.number (Num.fin 0))).1
        = some "#7fffff"
    ∧ (getColor (Env.initial (fun _ => 1 / 2)) (Val.ofInt 10)
        (Val.number (Num.fin 0))).2.RULER_COLORS (Val.ofInt 10) = none := by
  have h := getColor_unclaimed (Env.initial (fun _ => 1 / 2)) (Val.ofInt 10) (by decide!)
  refine ⟨?_, ?_⟩
  · rw [h.2.2.1 (by decide!)]
    decide!
  · rw [h.2.2.2]
    rfl

/-- C9: coordinate bound. For a world size `s > 0` and a world coordinate `c`
with `-s ≤ c ≤ s`, the city image coordinate
`Math.round((c + s) * mapScale)` with `mapScale = CANVAS_SIZE / (s * 2)` is an
integer between 0 and 1000. -/
theorem cityCoord_bound (s c : ℚ) (hs : 0 < s) (hlo : -s ≤ c) (hhi : c ≤ s) :
    ∃ n : ℤ, 0 ≤ n ∧ n ≤ 1000 ∧
      cityCoord (Num.fin s) (Num.div CANVAS_SIZE (Num.mul (Num.fin s) (Num.fin 2)))
        (Val.number (Num.fin c)) = Num.ofInt n := by
  have h2 : s * 2 ≠ 0 := by positivity
  refine ⟨⌊(c + s) * (1000 / (s * 2)) + 1 / 2⌋, ?_, ?_, ?_⟩
  · apply Int.floor_nonneg.mpr
    have : 0 ≤ (c + s) * (1000 / (s * 2)) := by
      apply mul_nonneg (by linarith)
      positivity
    linarith
  · have hle : (c + s) * (1000 / (s * 2)) ≤ 1000 := by
      rw [mul_div_assoc', div_le_iff₀ (by positivity)]
      nlinarith
    have : ⌊(c + s) * (1000 / (s * 2)) + 1 / 2⌋ < 1000 + 1 := by
      rw [Int.floor_lt]
      push_cast
      linarith
    omega
  · simp [cityCoord, cityCoordWith, Num.div, Num.mul, Num.add, Num.round, CANVAS_SIZE,
      Val.toNumber, h2, Num.ofInt, hs.ne']

/-- C9 at a concrete input: world size 100, coordinate 50. -/
theorem cityCoord_bound_witness :
    ∃ n : ℤ, 0 ≤ n ∧ n ≤ 1000 ∧
      cityCoord (Num.fin 100) (Num.div CANVAS_SIZE (Num.mul (Num.fin 100) (Num.fin 2)))
        (Val.number (Num.fin 50)) = Num.ofInt n :=
  cityCoord_bound 100 50 (by norm_num) (by norm_num) (by norm_num)

/-! ## Hexadecimal rendering -/

theorem digitVal_digitChar (m : Nat) (h : m < 16) :
    (digitVal 16 (Nat.digitChar m)).getD 0 = m := by
  interval_cases m <;> rfl

theorem hexValue_toDigitsCore (fuel : Nat) :
    ∀ (n : Nat) (ds : List Char), n < fuel →
      hexValue 0 (Nat.toDigitsCore 16 fuel n ds) = hexValue n ds := by
  induction fuel with
  | zero => intro n ds h; omega
  | succ fuel ih =>
    intro n ds h
    have hd := digitVal_digitChar (n % 16) (Nat.mod_lt _ (by norm_num))
    unfold Nat.toDigitsCore
    simp only
    split
    · rename_i h0
      have hn : n % 16 = n := Nat.mod_eq_of_lt (by omega)
      simp only [hexValue, List.foldl_cons, hd]
      rw [hn]; simp
    · rename_i h0
      rw [ih (n / 16) _ (by omega)]
      simp only [hexValue, List.foldl_cons, hd]
      rw [Nat.div_add_mod' n 16]

theorem hexValue_hexDigits (n : Nat) : hexValue 0 (hexDigits n) = n := by
  unfold hexDigits Nat.toDigits
  rw [hexValue_toDigitsCore (n + 1) n [] (by omega)]
  rfl

theorem hexValue_padStart6 (s : List Char) : hexValue 0 (padStart6 s) = hexValue 0 s := by
  unfold padStart6
  generalize 6 - s.length = k
  induction k with
  | zero => rfl
  | succ k ih =>
    rw [List.replicate_succ, List.cons_append]
    simpa [hexValue] using ih

/-- C10: `randomColor` never returns `#ffffff`. A draw `r` of `Math.random()`
lies in `[0, 1)`, so `Math.floor(r * 16777215)` is at most 16777214 and the
24-bit value 16777215 is rendered by no draw; the largest draw `1 - 2^-53`
gives `#fffffe`. -/
theorem randomColor_never_white :
    randomColor (1 - 1 / 9007199254740992) = "#fffffe"
    ∧ ¬ ∃ r : ℚ, 0 ≤ r ∧ r < 1 ∧ randomColor r = "#ffffff" := by
  refine ⟨by decide!, ?_⟩
  rintro ⟨r, h0, h1, h⟩
  have hnn : (0 : ℤ) ≤ ⌊r * 16777215⌋ := Int.floor_nonneg.mpr (by positivity)
  have hlt : ⌊r * 16777215⌋ < 16777215 := by
    rw [Int.floor_lt]; push_cast; linarith
  unfold randomColor at h
  have hl : padStart6 (toString16 ⌊r * 16777215⌋) = ['f', 'f', 'f', 'f', 'f', 'f'] := by
    have := congrArg String.data h
    simpa using this
  have ht : toString16 ⌊r * 16777215⌋ = hexDigits ⌊r * 16777215⌋.natAbs := by
    unfold toString16
    rw [if_neg (by omega)]
  have hv := congrArg (hexValue 0) hl
  rw [hexValue_padStart6, ht, hexValue_hexDigits] at hv
  have : hexValue 0 ['f', 'f', 'f', 'f', 'f', 'f'] = 16777215 := by decide
  rw [this] at hv
  omega

/-! ## Rows and events -/

theorem binary64_intCast (z : ℤ) (h : z.natAbs ≤ 2 ^ 53) : binary64 (z : ℚ) = Num.ofInt z := by
  unfold binary64
  rw [if_pos ⟨by simp, by simpa using h⟩]
  rfl

theorem parseInt_of_parseIntZ (s : List Char) (z : ℤ) (h : parseIntZ s = some z)
    (hz : z.natAbs ≤ 2 ^ 53) : parseInt s = Num.ofInt z := by
  unfold parseInt; rw [h]; exact binary64_intCast z hz

theorem colonySizeAt_ofInt (z : ℤ) :
    (colonySizeAt (Val.ofInt z)).toNumber = specColonySize z := by
  unfold colonySizeAt Val.ofInt Num.ofInt specColonySize
  simp only [Rat.intCast_den, Rat.intCast_num, true_and]
  by_cases h0 : 0 ≤ z
  · by_cases h9 : z ≤ 9
    · interval_cases z <;> rfl
    · have hlen : colonySize.length ≤ z.toNat := by simp [colonySize]; omega
      rw [if_pos h0, List.getElem?_eq_none hlen]
      simp only [Val.toNumber]
      repeat rw [if_neg (by omega)]
  · rw [if_neg h0]
    simp only [Val.toNumber]
    repeat rw [if_neg (by omega)]

theorem decodeKind_text (t : List Char) (k : Kind) (h : decodeKind t = some k) :
    String.mk t = k.text := by
  unfold decodeKind at h
  split at h
  · cases h; assumption
  · split at h
    · cases h; assumption
    · cases h

theorem parseRow_of_decodeRow (row : String) (ev : Event) (h : decodeRow row = some ev)
    (hs : ev.Safe) : parseRow row = ev.toFields := by
  unfold decodeRow at h
  split at h
  · rename_i d x y k w s t o hp
    simp only [Option.bind_eq_some] at h
    obtain ⟨d', hd, x', hx, y', hy, k', hk, w', hw, s', hs', t', ht, o', ho, hev⟩ := h
    cases hev
    obtain ⟨h1, h2, h3, h4, h5, h6, h7⟩ := hs
    simp only at h1 h2 h3 h4 h5 h6 h7
    unfold parseRow
    simp only [hp, numField, textField, Event.toFields, List.getElem?_cons_zero,
      List.getElem?_cons_succ, Option.map_some', parseInt_of_parseIntZ _ _ hd (by omega),
      parseInt_of_parseIntZ _ _ hx (by omega), parseInt_of_parseIntZ _ _ hy (by omega),
      parseInt_of_parseIntZ _ _ hk (by omega), parseInt_of_parseIntZ _ _ hw (by omega),
      parseInt_of_parseIntZ _ _ hs' (by omega), parseInt_of_parseIntZ _ _ ho (by omega),
      decodeKind_text _ _ ht, Val.ofInt]
  · cases h

theorem dayStart_of_decodeRow (row : String) (ev : Event) (h : decodeRow row = some ev)
    (hs : ev.SafeDay) : parseInt ((splitComma row.data).headD []) = Num.ofInt ev.day := by
  unfold decodeRow at h
  split at h
  · rename_i d x y k w s t o hp
    simp only [Option.bind_eq_some] at h
    obtain ⟨d', hd, x', hx, y', hy, k', hk, w', hw, s', hs', t', ht, o', ho, hev⟩ := h
    cases hev
    unfold Event.SafeDay at hs
    simp only at hs
    rw [hp]
    exact parseInt_of_parseIntZ d d' hd (by omega)
  · cases h

theorem day_of_decodeRow (row : String) (ev : Event) (h : decodeRow row = some ev)
    (hs : ev.SafeDay) : (parseRow row).day = Val.ofInt ev.day := by
  have hd := dayStart_of_decodeRow row ev h hs
  unfold decodeRow at h
  split at h
  · rename_i d x y k w s t o hp
    rw [hp] at hd
    unfold parseRow
    simp only [hp, numField, List.getElem?_cons_zero]
    simp only [List.headD_cons] at hd
    rw [hd]; rfl
  · cases h

/-! ## The loop of `makeFrames` -/

theorem strictNe_ofInt (a b : ℤ) :
    Val.strictNe (Val.ofInt a) (Val.ofInt b) = decide (a ≠ b) := by
  simp [Val.strictNe, Val.ofInt, Num.ofInt, Num.strictNe]

theorem modifyNth_length {α : Type} (g : α → α) (l : List α) (i : Nat) :
    (modifyNth g l i).length = l.length := by
  induction l generalizing i with
  | nil => rfl
  | cons a as ih =>
    cases i with
    | zero => rfl
    | succ i => simp [modifyNth, ih]

theorem modifyNth_append_last {α : Type} (g : α → α) (pre : List α) (cur : α) :
    modifyNth g (pre ++ [cur]) pre.length = pre ++ [g cur] := by
  induction pre with
  | nil => rfl
  | cons a as ih => simp [modifyNth, ih]

theorem Frame.append_empty (a : Frame) : a.append Frame.empty = a := by
  simp [Frame.append, Frame.empty]

theorem Frame.empty_append (a : Frame) : Frame.empty.append a = a := by
  simp [Frame.append, Frame.empty]

theorem Frame.append_assoc (a b c : Frame) : (a.append b).append c = a.append (b.append c) := by
  simp [Frame.append]

theorem specFrame_nil (world : World) : specFrame world [] = Frame.empty := rfl

theorem specFrame_cons (world : World) (p : Event × Option String)
    (ents : List (Event × Option String)) :
    specFrame world (p :: ents) = (specFrame world [p]).append (specFrame world ents) := by
  simp only [specFrame, Frame.append, List.filter_cons, List.filter_nil]
  cases p.1.kind <;> simp

theorem pushEntity_length (world : World) (ms : Num) (f : Fields) (st : LoopState) :
    (pushEntity world ms f st).frames.length = st.frames.length := by
  unfold pushEntity
  split
  · simp [modifyNth_length]
  · split
    · simp [modifyNth_length]
    · rfl

theorem pushEntity_currentDay (world : World) (ms : Num) (f : Fields) (st : LoopState) :
    (pushEntity world ms f st).currentDay = st.currentDay := by
  unfold pushEntity
  split
  · rfl
  · split <;> rfl

theorem toNumber_ofInt (z : ℤ) : (Val.ofInt z).toNumber = Num.ofInt z := rfl

theorem pushEntity_event (world : World) (ev : Event) (pre : List Frame) (cur : Frame)
    (d : Val) (env : Env) :
    pushEntity world (scaleOf world) ev.toFields
        { frames := pre ++ [cur], frame := pre.length, currentDay := d, env := env }
      = { frames := pre ++ [cur.append (specFrame world
            [(ev, (getColor env (Val.ofInt ev.territoryId) (Val.ofInt ev.ownerId)).1)])]
          frame := pre.length
          currentDay := d
          env := (getColor env (Val.ofInt ev.territoryId) (Val.ofInt ev.ownerId)).2 } := by
  unfold pushEntity
  cases hk : ev.kind with
  | city =>
    have h1 : ev.toFields.type = some "city" := by simp [Event.toFields, hk, Kind.text]
    rw [if_pos h1]
    simp only [modifyNth_append_last]
    simp [specFrame, Frame.append, hk, mkCity, specCity, cityCoordWith, Num.fmul, Num.fadd,
      Event.toFields, toNumber_ofInt, colonySizeAt_ofInt]
  | army =>
    have h1 : ev.toFields.type ≠ some "city" := by simp [Event.toFields, hk, Kind.text]
    have h2 : ev.toFields.type = some "army" := by simp [Event.toFields, hk, Kind.text]
    rw [if_neg h1, if_pos h2]
    simp only [modifyNth_append_last]
    simp [specFrame, Frame.append, hk, mkArmy, specArmy, armyCoord, Event.toFields,
      toNumber_ofInt]

theorem loop_step_same (TEST : Bool) (world : World) (row : String) (ev : Event)
    (rest : List String) (pre : List Frame) (cur : Frame) (env : Env)
    (hrow : decodeRow row = some ev) (hs : ev.Safe) :
    loop TEST world (scaleOf world) (row :: rest)
        { frames := pre ++ [cur], frame := pre.length, currentDay := Val.ofInt ev.day, env := env }
      = loop TEST world (scaleOf world) rest
        { frames := pre ++ [cur.append (specFrame world
            [(ev, (getColor env (Val.ofInt ev.territoryId) (Val.ofInt ev.ownerId)).1)])]
          frame := pre.length
          currentDay := Val.ofInt ev.day
          env := (getColor env (Val.ofInt ev.territoryId) (Val.ofInt ev.ownerId)).2 } := by
  have hf := parseRow_of_decodeRow row ev hrow hs
  have hd : Val.strictNe ev.toFields.day (Val.ofInt ev.day) = false := by
    simp [Event.toFields, strictNe_ofInt]
  rw [loop]
  simp only [hf, hd, Bool.false_eq_true, if_false]
  rw [pushEntity_event]

theorem loop_step_next (world : World) (row : String) (ev : Event)
    (rest : List String) (pre : List Frame) (cur : Frame) (D : ℤ) (env : Env)
    (hrow : decodeRow row = some ev) (hs : ev.Safe) (hne : ev.day ≠ D) :
    loop false world (scaleOf world) (row :: rest)
        { frames := pre ++ [cur], frame := pre.length, currentDay := Val.ofInt D, env := env }
      = loop false world (scaleOf world) rest
        { frames := (pre ++ [cur]) ++ [Frame.empty.append (specFrame world
            [(ev, (getColor env (Val.ofInt ev.territoryId) (Val.ofInt ev.ownerId)).1)])]
          frame := (pre ++ [cur]).length
          currentDay := Val.ofInt ev.day
          env := (getColor env (Val.ofInt ev.territoryId) (Val.ofInt ev.ownerId)).2 } := by
  have hf := parseRow_of_decodeRow row ev hrow hs
  have hd : Val.strictNe ev.toFields.day (Val.ofInt D) = true := by
    simp [Event.toFields, strictNe_ofInt, hne]
  rw [loop]
  simp only [hf, hd, if_true, Bool.false_eq_true, if_false]
  rw [← pushEntity_event]
  rfl

theorem loop_step_break (world : World) (ms : Num) (row : String) (ev : Event)
    (rest : List String) (st : LoopState) (D : ℤ)
    (hrow : decodeRow row = some ev) (hs : ev.SafeDay) (hst : st.currentDay = Val.ofInt D)
    (hne : ev.day ≠ D) :
    loop true world ms (row :: rest) st = st := by
  have hf := day_of_decodeRow row ev hrow hs
  have hd : Val.strictNe (Val.ofInt ev.day) (Val.ofInt D) = true := by
    simp [strictNe_ofInt, hne]
  rw [loop]
  simp only [hf, hst, hd, if_true]

theorem loop_length (world : World) (ms : Num) (rows : List String) (events : List Event)
    (h : Decodes rows events) :
    (∀ ev ∈ events, ev.SafeDay) →
    ∀ (st : LoopState) (D : ℤ), st.currentDay = Val.ofInt D →
      (loop false world ms rows st).frames.length
        = st.frames.length + dayChanges D (events.map Event.day) := by
  induction h with
  | nil => intro _ st D _; simp [loop, dayChanges]
  | @cons row ev rows' events' hrow _ ih =>
    intro hs st D hst
    have hsd := hs ev (List.mem_cons_self _ _)
    have hs' : ∀ e ∈ events', e.SafeDay := fun e he => hs e (List.mem_cons_of_mem _ he)
    have hday := day_of_decodeRow row ev hrow hsd
    rw [loop]
    simp only [hday, hst, List.map_cons, dayChanges, strictNe_ofInt]
    by_cases hd : ev.day = D
    · subst hd
      simp only [ne_eq, not_true_eq_false, decide_False, Bool.false_eq_true, if_false, if_true]
      rw [ih hs' _ ev.day (by rw [pushEntity_currentDay]; exact hst), pushEntity_length]
      omega
    · simp only [ne_eq, hd, not_false_eq_true, decide_True, if_true, Bool.false_eq_true,
        if_false]
      rw [ih hs' _ ev.day (by rw [pushEntity_currentDay]), pushEntity_length]
      simp only [List.length_append, List.length_singleton]
      omega

/-! ## Counting day changes -/

theorem ascending_le_last (days : List ℤ) : ∀ D, Ascending D days → D ≤ days.getLastD D := by
  induction days with
  | nil => intro D _; simp
  | cons d ds ih =>
    intro D h
    simp only [Ascending, List.chain_cons] at h
    have := ih d h.2
    simp only [List.getLastD_cons]
    omega

theorem ascending_le_mem (days : List ℤ) : ∀ D, Ascending D days → ∀ d ∈ days, D ≤ d := by
  induction days with
  | nil => intro D _ d hd; cases hd
  | cons d' ds ih =>
    intro D h d hd
    simp only [Ascending, List.chain_cons] at h
    rcases List.mem_cons.mp hd with rfl | hmem
    · exact h.1
    · exact le_trans h.1 (ih d' h.2 d hmem)

theorem gapFree_ascending (days : List ℤ) : ∀ D, GapFree D days → Ascending D days := by
  induction days with
  | nil => intro D _; exact List.Chain.nil
  | cons d ds ih =>
    intro D h
    simp only [GapFree, List.chain_cons] at h
    exact List.Chain.cons (by omega) (ih d h.2)

theorem dayChanges_gapFree (days : List ℤ) :
    ∀ D, GapFree D days → (dayChanges D days : ℤ) = days.getLastD D - D := by
  induction days with
  | nil => intro D _; simp [dayChanges]
  | cons d ds ih =>
    intro D h
    simp only [GapFree, List.chain_cons] at h
    have := ih d h.2
    simp only [dayChanges, List.getLastD_cons, Nat.cast_add]
    rcases h.1 with h1 | h1
    · subst h1
      simp only [if_true, Nat.cast_zero]
      omega
    · have hne : d ≠ D := by omega
      simp only [hne, if_false, Nat.cast_one]
      omega

theorem dayChanges_le (days : List ℤ) :
    ∀ D, Ascending D days → (dayChanges D days : ℤ) ≤ days.getLastD D - D := by
  induction days with
  | nil => intro D _; simp [dayChanges]
  | cons d ds ih =>
    intro D h
    simp only [Ascending, List.chain_cons] at h
    have := ih d h.2
    simp only [dayChanges, List.getLastD_cons, Nat.cast_add]
    split
    · simp only [Nat.cast_zero]; omega
    · rename_i hne
      simp only [Nat.cast_one]; omega

theorem dayChanges_lt_of_gap (days : List ℤ) :
    ∀ D, Ascending D days → ¬ GapFree D days →
      (dayChanges D days : ℤ) < days.getLastD D - D := by
  induction days with
  | nil => intro D _ hg; exact absurd List.Chain.nil hg
  | cons d ds ih =>
    intro D h hg
    simp only [Ascending, List.chain_cons] at h
    simp only [GapFree, List.chain_cons, not_and_or] at hg
    simp only [dayChanges, List.getLastD_cons, Nat.cast_add]
    rcases hg with hg | hg
    · have := dayChanges_le ds d h.2
      have hne : d ≠ D := by omega
      simp only [hne, if_false, Nat.cast_one]
      omega
    · have := ih d h.2 hg
      split
      · simp only [Nat.cast_zero]; omega
      · simp only [Nat.cast_one]; omega

/-! ## The frames built by the loop -/

theorem onDay_cons_eq (d : ℤ) (p : Event × Option String) (ents : List (Event × Option String))
    (h : p.1.day = d) : onDay d (p :: ents) = p :: onDay d ents := by
  simp [onDay, List.filter_cons, h]

theorem onDay_cons_ne (d : ℤ) (p : Event × Option String) (ents : List (Event × Option String))
    (h : p.1.day ≠ d) : onDay d (p :: ents) = onDay d ents := by
  simp [onDay, List.filter_cons, h]

theorem onDay_eq_nil (d : ℤ) (events : List Event) (colors : List (Option String))
    (h : ∀ ev ∈ events, d < ev.day) : onDay d (events.zip colors) = [] := by
  unfold onDay
  rw [List.filter_eq_nil_iff]
  intro p hp
  have hm := (List.of_mem_zip (a := p.1) (b := p.2) hp).1
  have := h p.1 hm
  simp only [decide_eq_true_eq]
  omega

theorem specFrame_onDay_cons_eq (world : World) (d : ℤ) (p : Event × Option String)
    (ents : List (Event × Option String)) (h : p.1.day = d) :
    specFrame world (onDay d (p :: ents))
      = (specFrame world [p]).append (specFrame world (onDay d ents)) := by
  rw [onDay_cons_eq d p ents h, specFrame_cons]

theorem specFrame_onDay_cons_ne (world : World) (d : ℤ) (p : Event × Option String)
    (ents : List (Event × Option String)) (h : p.1.day ≠ d) :
    specFrame world (onDay d (p :: ents)) = specFrame world (onDay d ents) := by
  rw [onDay_cons_ne d p ents h]

theorem loop_normal (world : World) (rows : List String) (events : List Event)
    (h : Decodes rows events) :
    (∀ ev ∈ events, ev.Safe) →
    ∀ (pre : List Frame) (cur : Frame) (D : ℤ) (env : Env),
      GapFree D (events.map Event.day) →
      (loop false world (scaleOf world) rows
          { frames := pre ++ [cur], frame := pre.length, currentDay := Val.ofInt D,
            env := env }).frames
        = pre ++ cur.append (specFrame world (onDay D (events.zip (colorTrace env events)))) ::
            (List.range ((events.map Event.day).getLastD D - D).toNat).map
              (fun (i : ℕ) => specFrame world
                (onDay (D + 1 + (i : ℤ)) (events.zip (colorTrace env events)))) := by
  induction h with
  | nil =>
    intro _ pre cur D env _
    simp [loop, onDay, specFrame_nil, Frame.append_empty, colorTrace]
  | @cons row ev rows' events' hrow _ ih =>
    intro hs pre cur D env hg
    have hsev := hs ev (List.mem_cons_self _ _)
    have hs' : ∀ e ∈ events', e.Safe := fun e he => hs e (List.mem_cons_of_mem _ he)
    simp only [List.map_cons, GapFree, List.chain_cons] at hg
    obtain ⟨hstep, hrest⟩ := hg
    have hasc := gapFree_ascending _ _ hrest
    have hlast := ascending_le_last _ _ hasc
    have hmem := ascending_le_mem _ _ hasc
    simp only [List.map_cons, List.getLastD_cons, colorTrace, List.zip_cons_cons]
    rcases hstep with hd | hd
    · -- the row belongs to the current day
      subst hd
      rw [loop_step_same false world row ev rows' pre cur env hrow hsev, ih hs' _ _ ev.day _ hrest,
        specFrame_onDay_cons_eq world ev.day _ _ rfl, Frame.append_assoc]
      congr 2
      apply List.map_congr_left
      intro i _
      exact (specFrame_onDay_cons_ne world _ _ _ (by simp only; omega)).symm
    · -- the row starts the next day
      have hne : ev.day ≠ D := by omega
      rw [loop_step_next world row ev rows' pre cur D env hrow hsev hne, ih hs' _ _ ev.day _ hrest]
      have hnil : onDay D (events'.zip (colorTrace (getColor env
          (Val.ofInt ev.territoryId) (Val.ofInt ev.ownerId)).2 events')) = [] := by
        apply onDay_eq_nil
        intro e he
        have := hmem e.day (List.mem_map_of_mem _ he)
        omega
      have hn : ((List.map Event.day events').getLastD ev.day - D).toNat
          = ((List.map Event.day events').getLastD ev.day - ev.day).toNat + 1 := by omega
      rw [specFrame_onDay_cons_ne world D _ _ hne, hnil, specFrame_nil, Frame.append_empty,
        hn, List.range_succ_eq_map, List.map_cons, List.map_map, List.append_assoc,
        List.singleton_append, Frame.empty_append]
      congr 2
      have h0 : D + 1 + ((0 : ℕ) : ℤ) = ev.day := by simp [hd]
      rw [h0, specFrame_onDay_cons_eq world ev.day _ _ rfl]
      congr 1
      apply List.map_congr_left
      intro i _
      simp only [Function.comp]
      rw [specFrame_onDay_cons_ne world _ _ _ (by simp only; push_cast; omega)]
      congr 2
      push_cast
      omega

theorem loop_test (world : World) (rows : List String) (events : List Event)
    (h : Decodes rows events) :
    (∀ ev ∈ events, ev.Safe) →
    ∀ (pre : List Frame) (cur : Frame) (D : ℤ) (env : Env),
      (loop true world (scaleOf world) rows
          { frames := pre ++ [cur], frame := pre.length, currentDay := Val.ofInt D,
            env := env }).frames
        = pre ++ [cur.append (specFrame world
            ((events.takeWhile (fun e => decide (e.day = D))).zip
              (colorTrace env (events.takeWhile (fun e => decide (e.day = D))))))] := by
  induction h with
  | nil =>
    intro _ pre cur D env
    simp [loop, specFrame_nil, Frame.append_empty, colorTrace]
  | @cons row ev rows' events' hrow _ ih =>
    intro hs pre cur D env
    have hsev := hs ev (List.mem_cons_self _ _)
    have hs' : ∀ e ∈ events', e.Safe := fun e he => hs e (List.mem_cons_of_mem _ he)
    by_cases hd : ev.day = D
    · subst hd
      rw [loop_step_same true world row ev rows' pre cur env hrow hsev, ih hs']
      simp only [List.takeWhile_cons, decide_True, if_true, colorTrace, List.zip_cons_cons]
      rw [Frame.append_assoc, ← specFrame_cons]
    · rw [loop_step_break world (scaleOf world) row ev rows' _ D hrow hsev.1 rfl hd]
      simp [List.takeWhile_cons, hd, colorTrace, specFrame_nil, Frame.append_empty]

/-! ## The function `makeFrames` on decoded feeds -/

theorem decodes_getLast (rows : List String) (events : List Event) (h : Decodes rows events) :
    ∀ (hr : rows ≠ []) (he : events ≠ []),
      decodeRow (rows.getLast hr) = some (events.getLast he) := by
  induction h with
  | nil => intro hr; exact absurd rfl hr
  | @cons row ev rows' events' hrow htail ih =>
    intro hr he
    cases htail with
    | nil => simpa using hrow
    | @cons row2 ev2 rows2 events2 hrow2 htail2 =>
      rw [List.getLast_cons (List.cons_ne_nil _ _), List.getLast_cons (List.cons_ne_nil _ _)]
      exact ih _ _

theorem strictNe_count (n : Nat) (a b : ℤ) (ha : a.natAbs < 2 ^ 52) (hb : b.natAbs < 2 ^ 52) :
    Num.strictNe (Num.ofNat n) (Num.fadd (Num.fsub (Num.ofInt b) (Num.ofInt a)) (Num.fin 1))
      = decide ((n : ℤ) ≠ b - a + 1) := by
  have h1 : Num.fsub (Num.ofInt b) (Num.ofInt a) = Num.ofInt (b - a) := by
    have : (b : ℚ) + -(a : ℚ) = ((b - a : ℤ) : ℚ) := by push_cast; ring
    simp only [Num.fsub, Num.sub, Num.neg, Num.add, Num.ofInt, Num.toBinary64, this]
    exact binary64_intCast (b - a) (by omega)
  have h2 : Num.fadd (Num.ofInt (b - a)) (Num.fin 1) = Num.ofInt (b - a + 1) := by
    have : ((b - a : ℤ) : ℚ) + 1 = ((b - a + 1 : ℤ) : ℚ) := by push_cast; ring
    simp only [Num.fadd, Num.add, Num.ofInt, Num.toBinary64, this]
    exact binary64_intCast (b - a + 1) (by omega)
  rw [h1, h2]
  simp only [Num.ofNat, Num.ofInt, Num.strictNe]
  apply decide_eq_decide.mpr
  simp only [ne_eq, Num.fin.injEq]
  constructor
  · intro h hn
    apply h
    rw [← Int.cast_natCast, hn]
  · intro h hn
    apply h
    exact_mod_cast hn

theorem makeFrames_decoded (TEST : Bool) (row : String) (rows : List String) (ev : Event)
    (events : List Event) (world : World) (env : Env)
    (h : Decodes (row :: rows) (ev :: events)) (hs : ∀ e ∈ ev :: events, e.SafeDay) :
    (makeFrames TEST (row :: rows) world env).1 =
      if ((loop TEST world (scaleOf world) (row :: rows)
            { frames := [] ++ [Frame.empty], frame := ([] : List Frame).length,
              currentDay := Val.ofInt ev.day, env := env }).frames.length : ℤ)
          ≠ (if TEST then ev.day else ((ev :: events).getLast (List.cons_ne_nil _ _)).day)
              - ev.day + 1
      then Except.error (MakeFramesError.frameCount
        (loop TEST world (scaleOf world) (row :: rows)
            { frames := [] ++ [Frame.empty], frame := ([] : List Frame).length,
              currentDay := Val.ofInt ev.day, env := env }).frames.length
        (Num.ofInt ev.day)
        (Num.ofInt (if TEST then ev.day
          else ((ev :: events).getLast (List.cons_ne_nil _ _)).day)))
      else Except.ok (loop TEST world (scaleOf world) (row :: rows)
            { frames := [] ++ [Frame.empty], frame := ([] : List Frame).length,
              currentDay := Val.ofInt ev.day, env := env }).frames := by
  have hrow : decodeRow row = some ev := by cases h; assumption
  have hsf : ev.SafeDay := hs ev (List.mem_cons_self _ _)
  have hsl : ((ev :: events).getLast (List.cons_ne_nil _ _)).SafeDay :=
    hs _ (List.getLast_mem _)
  have hs1 := dayStart_of_decodeRow row ev hrow hsf
  have hl := dayStart_of_decodeRow _ _
    (decodes_getLast _ _ h (List.cons_ne_nil _ _) (List.cons_ne_nil _ _)) hsl
  unfold makeFrames
  simp only [hs1, hl]
  have hscale : Num.fdiv CANVAS_SIZE (Num.fmul world.size (Num.fin 2)) = scaleOf world := rfl
  rw [hscale]
  cases TEST with
  | true =>
    simp only [if_true, List.nil_append, List.length_nil, strictNe_count _ _ _ hsf hsf]
    rw [apply_ite Prod.fst]
    simp only [decide_eq_true_eq]
    rfl
  | false =>
    simp only [Bool.false_eq_true, if_false, List.nil_append, List.length_nil,
      strictNe_count _ _ _ hsf hsl]
    rw [apply_ite Prod.fst]
    simp only [decide_eq_true_eq]
    rfl

theorem getLastD_map_day (events : List Event) :
    ∀ (D : ℤ) (he : events ≠ []),
      (events.map Event.day).getLastD D = (events.getLast he).day := by
  induction events with
  | nil => intro D he; exact absurd rfl he
  | cons ev rest ih =>
    intro D he
    cases rest with
    | nil => simp
    | cons ev2 rest2 =>
      rw [List.map_cons, List.getLastD_cons, ih ev.day (List.cons_ne_nil _ _),
        List.getLast_cons (List.cons_ne_nil _ _)]

theorem gapFree_of_chain' (ev : Event) (events : List Event)
    (h : List.Chain' (fun a b : Event => b.day = a.day ∨ b.day = a.day + 1) (ev :: events)) :
    GapFree ev.day ((ev :: events).map Event.day) := by
  simp only [GapFree, List.map_cons, List.chain_cons]
  exact ⟨Or.inl trivial, (List.chain_map Event.day).mpr h⟩

theorem ascending_of_chain' (ev : Event) (events : List Event)
    (h : List.Chain' (fun a b : Event => a.day ≤ b.day) (ev :: events)) :
    Ascending ev.day ((ev :: events).map Event.day) := by
  simp only [Ascending, List.map_cons, List.chain_cons]
  exact ⟨le_refl _, (List.chain_map Event.day).mpr h⟩

theorem not_gapFree_of_gap (ev : Event) (events : List Event)
    (h : ∃ l1 a b l2, ev :: events = l1 ++ a :: b :: l2 ∧ a.day + 1 < b.day) :
    ¬ GapFree ev.day ((ev :: events).map Event.day) := by
  obtain ⟨l1, a, b, l2, heq, hlt⟩ := h
  intro hg
  simp only [GapFree, List.map_cons, List.chain_cons] at hg
  have hc : List.Chain' (fun a b : Event => b.day = a.day ∨ b.day = a.day + 1) (ev :: events) :=
    (List.chain_map Event.day).mp hg.2
  rw [heq, List.chain'_append_cons_cons] at hc
  have := hc.2.1
  omega

theorem makeFrames_ok_of_gapFree (rows : List String) (events : List Event)
    (world : World) (env : Env) (hdec : Decodes rows events) (hne : events ≠ [])
    (hsafe : ∀ ev ∈ events, ev.SafeDay)
    (hgf : List.Chain' (fun a b : Event => b.day = a.day ∨ b.day = a.day + 1) events) :
    ∃ frames, (makeFrames false rows world env).1 = Except.ok frames
      ∧ (frames.length : ℤ) = (events.getLast hne).day - (events.head hne).day + 1 := by
  cases hdec with
  | nil => exact absurd rfl hne
  | @cons row ev rows' events' hrow htail =>
    have hdec : Decodes (row :: rows') (ev :: events') := List.Forall₂.cons hrow htail
    have hg := gapFree_of_chain' ev events' hgf
    have hlen := loop_length world (scaleOf world) _ _ hdec hsafe
      { frames := [] ++ [Frame.empty], frame := ([] : List Frame).length,
        currentDay := Val.ofInt ev.day, env := env } ev.day rfl
    have hch := dayChanges_gapFree _ _ hg
    rw [getLastD_map_day _ _ hne] at hch
    have hcount : ((loop false world (scaleOf world) (row :: rows')
        { frames := [] ++ [Frame.empty], frame := ([] : List Frame).length,
          currentDay := Val.ofInt ev.day, env := env }).frames.length : ℤ)
        = ((ev :: events').getLast hne).day - ev.day + 1 := by
      rw [hlen]; push_cast; simp only [List.nil_append, List.length_singleton]; omega
    refine ⟨_, ?_, hcount⟩
    rw [makeFrames_decoded false row rows' ev events' world env hdec hsafe]
    simp only [Bool.false_eq_true, if_false]
    rw [if_neg (by simpa using hcount)]

/-- C1, refuted as stated: the rows with days written `2^53`, `2^53 + 1` and
`2^53 + 2` are well-formed and their days advance by one, yet `parseInt` reads
the second day as `2^53`, two frames are built where three are expected, and
`makeFrames` raises the frame-count error. -/
theorem makeFrames_gapFree_feed_fails :
    Decodes bigRows bigEvents
    ∧ List.Chain' (fun a b : Event => b.day = a.day ∨ b.day = a.day + 1) bigEvents
    ∧ (makeFrames false bigRows exampleWorld exampleEnv).1
        = Except.error (MakeFramesError.frameCount 2 (Num.fin 9007199254740992)
            (Num.fin 9007199254740994)) :=
  ⟨by unfold Decodes; decide!, by simp [bigEvents], by decide!⟩

/-- C1, amended: for a non-empty feed of well-formed rows whose days are below
`2^52` in absolute value and stay or advance by one from each row to the next,
`makeFrames` in normal mode returns frames, and their number is
`lastDay - firstDay + 1`. -/
theorem makeFrames_length_of_gapFree (rows : List String) (events : List Event)
    (world : World) (env : Env) (hdec : Decodes rows events) (hne : events ≠ [])
    (hsafe : ∀ ev ∈ events, ev.SafeDay)
    (hgf : List.Chain' (fun a b : Event => b.day = a.day ∨ b.day = a.day + 1) events) :
    ∃ frames, (makeFrames false rows world env).1 = Except.ok frames
      ∧ (frames.length : ℤ) = (events.getLast hne).day - (events.head hne).day + 1 :=
  makeFrames_ok_of_gapFree rows events world env hdec hne hsafe hgf

/-- C1, amended, on the feed spanning days 5 to 9: five frames. -/
theorem makeFrames_length_of_gapFree_witness :
    ∃ frames, (makeFrames false spanRows exampleWorld exampleEnv).1 = Except.ok frames
      ∧ (frames.length : ℤ) = 9 - 5 + 1 :=
  makeFrames_length_of_gapFree spanRows spanEvents exampleWorld exampleEnv
    (by unfold Decodes; decide!) (by decide) (by simp [spanEvents, Event.SafeDay])
    (by simp [spanEvents])

/-- C2, refuted as stated: the rows with days written `2^53 - 1` and `2^53 + 1`
are well-formed, ascending and skip the day `2^53`, yet `parseInt` reads the
second day as `2^53`, so two frames are built, two are expected, and
`makeFrames` returns them. -/
theorem makeFrames_gap_feed_returns :
    Decodes bigGapRows bigGapEvents
    ∧ List.Chain' (fun a b : Event => a.day ≤ b.day) bigGapEvents
    ∧ (∃ l1 a b l2, bigGapEvents = l1 ++ a :: b :: l2 ∧ a.day + 1 < b.day)
    ∧ (makeFrames false bigGapRows exampleWorld exampleEnv).1
        = Except.ok [
            Frame.mk [City.mk (Num.fin 500) (Num.fin 500) (Num.fin 50) (Val.ofInt 10)
              (Val.ofInt 0) (some "#7fffff")] [],
            Frame.mk [City.mk (Num.fin 750) (Num.fin 750) (Num.fin 50) (Val.ofInt 10)
              (Val.ofInt 0) (some "#7fffff")] []] :=
  ⟨by unfold Decodes; decide!, by simp [bigGapEvents], ⟨[], _, _, [], rfl, by decide⟩,
    by decide!⟩

/-- C2, amended: for a feed of well-formed rows whose days are below `2^52` in
absolute value and ascending, and in which some row's day exceeds the previous
row's day by more than 1, `makeFrames` in normal mode raises the frame-count
error: it has pushed one frame per day change, and the number of frames is less
than `lastDay - firstDay + 1`. -/
theorem makeFrames_fails_of_gap (rows : List String) (events : List Event)
    (world : World) (env : Env) (hdec : Decodes rows events) (hne : events ≠ [])
    (hsafe : ∀ ev ∈ events, ev.SafeDay)
    (hasc : List.Chain' (fun a b : Event => a.day ≤ b.day) events)
    (hgap : ∃ l1 a b l2, events = l1 ++ a :: b :: l2 ∧ a.day + 1 < b.day) :
    ∃ n, (makeFrames false rows world env).1
        = Except.error (MakeFramesError.frameCount n (Num.ofInt (events.head hne).day)
            (Num.ofInt (events.getLast hne).day))
      ∧ n = 1 + dayChanges (events.head hne).day (events.map Event.day)
      ∧ (n : ℤ) < (events.getLast hne).day - (events.head hne).day + 1 := by
  cases hdec with
  | nil => exact absurd rfl hne
  | @cons row ev rows' events' hrow htail =>
    have hdec : Decodes (row :: rows') (ev :: events') := List.Forall₂.cons hrow htail
    have ha := ascending_of_chain' ev events' hasc
    have hng := not_gapFree_of_gap ev events' hgap
    have hlen := loop_length world (scaleOf world) _ _ hdec hsafe
      { frames := [] ++ [Frame.empty], frame := ([] : List Frame).length,
        currentDay := Val.ofInt ev.day, env := env } ev.day rfl
    simp only [List.nil_append, List.length_singleton] at hlen
    have hch := dayChanges_lt_of_gap _ _ ha hng
    rw [getLastD_map_day _ _ hne] at hch
    have hcount : ((loop false world (scaleOf world) (row :: rows')
        { frames := [] ++ [Frame.empty], frame := ([] : List Frame).length,
          currentDay := Val.ofInt ev.day, env := env }).frames.length : ℤ)
        < ((ev :: events').getLast hne).day - ev.day + 1 := by
      simp only [List.nil_append]
      rw [hlen]; push_cast; omega
    refine ⟨_, ?_, hlen, hcount⟩
    rw [makeFrames_decoded false row rows' ev events' world env hdec hsafe]
    simp only [Bool.false_eq_true, if_false]
    rw [if_pos (ne_of_lt hcount)]
    rfl

/-- C2, amended, on the feed with days 5 and 7: two frames where three are
expected. -/
theorem makeFrames_fails_of_gap_witness :
    (makeFrames false gapRows exampleWorld exampleEnv).1
        = Except.error (MakeFramesError.frameCount 2 (Num.ofInt 5) (Num.ofInt 7))
    ∧ ∃ n, (makeFrames false gapRows exampleWorld exampleEnv).1
        = Except.error (MakeFramesError.frameCount n (Num.ofInt 5) (Num.ofInt 7))
      ∧ n = 1 + dayChanges 5 (gapEvents.map Event.day)
      ∧ (n : ℤ) < 7 - 5 + 1 :=
  ⟨by decide!,
   makeFrames_fails_of_gap gapRows gapEvents exampleWorld exampleEnv
    (by unfold Decodes; decide!) (by decide) (by simp [gapEvents, Event.SafeDay])
    (by simp [gapEvents]) ⟨[], _, _, [], rfl, by decide⟩⟩

/-- C4, refuted as stated: the rows with days written `2^53` and `2^53 + 1`
are well-formed and their days advance by one, yet `parseInt` reads both days
as `2^53`, so `makeFrames` returns one frame holding both cities where the
claim has two frames of one city each. -/
theorem makeFrames_merges_days :
    Decodes bigPairRows bigPairEvents
    ∧ List.Chain' (fun a b : Event => b.day = a.day ∨ b.day = a.day + 1) bigPairEvents
    ∧ (makeFrames false bigPairRows exampleWorld exampleEnv).1
        = Except.ok [Frame.mk
            [City.mk (Num.fin 500) (Num.fin 500) (Num.fin 50) (Val.ofInt 10) (Val.ofInt 0)
              (some "#7fffff"),
             City.mk (Num.fin 750) (Num.fin 750) (Num.fin 50) (Val.ofInt 10) (Val.ofInt 0)
              (some "#7fffff")] []] :=
  ⟨by unfold Decodes; decide!, by simp [bigPairEvents], by decide!⟩

/-- C4, amended: for a non-empty feed of well-formed rows whose numeric fields
are below `2^52` in absolute value and whose days stay or advance by one,
`makeFrames` in normal mode returns `lastDay - firstDay + 1` frames and the
frame at index `i` is the frame of the specification for the rows of day
`firstDay + i`, in feed order: cities at the rounded binary64 coordinates with
the radius of the table, armies at the binary64 coordinates, each coloured by
`getColor` called once per row in feed order. -/
theorem makeFrames_frames (rows : List String) (events : List Event)
    (world : World) (env : Env) (hdec : Decodes rows events) (hne : events ≠ [])
    (hsafe : ∀ ev ∈ events, ev.Safe)
    (hgf : List.Chain' (fun a b : Event => b.day = a.day ∨ b.day = a.day + 1) events) :
    ∃ frames, (makeFrames false rows world env).1 = Except.ok frames
      ∧ (frames.length : ℤ) = (events.getLast hne).day - (events.head hne).day + 1
      ∧ ∀ i : ℕ, i < frames.length →
          frames[i]? = some (specFrame world
            (onDay ((events.head hne).day + (i : ℤ)) (events.zip (colorTrace env events)))) := by
  have hsd : ∀ ev ∈ events, ev.SafeDay := fun ev hev => (hsafe ev hev).1
  obtain ⟨frames, hok, hlen⟩ :=
    makeFrames_ok_of_gapFree rows events world env hdec hne hsd hgf
  refine ⟨frames, hok, hlen, ?_⟩
  cases hdec with
  | nil => exact absurd rfl hne
  | @cons row ev rows' events' hrow htail =>
    have hdec : Decodes (row :: rows') (ev :: events') := List.Forall₂.cons hrow htail
    have hg := gapFree_of_chain' ev events' hgf
    have hfr := loop_normal world _ _ hdec hsafe [] Frame.empty ev.day env hg
    rw [makeFrames_decoded false row rows' ev events' world env hdec hsd] at hok
    simp only [Bool.false_eq_true, if_false] at hok
    split at hok
    · cases hok
    · injection hok with hok
      rw [hfr] at hok
      subst hok
      intro i hi
      simp only [List.head_cons, List.nil_append, Frame.empty_append]
      cases i with
      | zero => simp
      | succ j =>
        simp only [List.nil_append, List.length_cons, List.length_map, List.length_range,
          Nat.add_lt_add_iff_right] at hi
        simp only [List.getElem?_cons_succ, List.getElem?_map, List.getElem?_range hi,
          Option.map_some']
        congr 3
        push_cast
        ring

/-- C4, amended, on two feeds. The end-to-end example: world size 100, a city
at `(0,0)` of kingdom 10, size class 0, owner 0, and an army at `(50,50)` of
kingdom 10, owner 7, both on day 5, give one frame with a city at `(500,500)` of
radius 50 and an army at `(750,750)`, both in the colour drawn for kingdom 10.
World size 152, where the scale `1000 / 304` is rounded: a city at `(-133,133)`
is placed at `(62,937)` with the rounded radius `10 * scale`, and an army at
`(1,1)` at the rounded `153 * scale`. -/
theorem makeFrames_frames_witness :
    (makeFrames false exampleRows exampleWorld exampleEnv).1
        = Except.ok [Frame.mk
            [City.mk (Num.fin 500) (Num.fin 500) (Num.fin 50) (Val.ofInt 10) (Val.ofInt 0)
              (some "#7fffff")]
            [Army.mk (Num.fin 750) (Num.fin 750) (some "#7fffff")]]
    ∧ (makeFrames false roundingRows roundingWorld exampleEnv).1
        = Except.ok [Frame.mk
            [City.mk (Num.fin 62) (Num.fin 937) (Num.fin (578690330408421 / 17592186044416))
              (Val.ofInt 10) (Val.ofInt 0) (some "#7fffff")]
            [Army.mk (Num.fin (4426981027624421 / 8796093022208))
              (Num.fin (4426981027624421 / 8796093022208)) (some "#7fffff")]]
    ∧ ∃ frames, (makeFrames false roundingRows roundingWorld exampleEnv).1 = Except.ok frames
      ∧ (frames.length : ℤ) = 5 - 5 + 1
      ∧ ∀ i : ℕ, i < frames.length →
          frames[i]? = some (specFrame roundingWorld
            (onDay (5 + (i : ℤ)) (roundingEvents.zip (colorTrace exampleEnv roundingEvents)))) :=
  ⟨by decide!, by decide!,
   makeFrames_frames roundingRows roundingEvents roundingWorld exampleEnv
    (by unfold Decodes; decide!) (by decide) (by simp [roundingEvents, Event.Safe])
    (by simp [roundingEvents])⟩

/-- C8, refuted as stated: with `TEST` set, the rows with days written `2^53`
and `2^53 + 1` are well-formed and only the first has the first row's day, yet
`parseInt` reads both days as `2^53` and the single frame returned holds the
second row's army too. -/
theorem makeFrames_truncated_merges_days :
    Decodes bigTruncatedRows bigTruncatedEvents
    ∧ (bigTruncatedEvents.takeWhile (fun e => decide (e.day = 9007199254740992))).length = 1
    ∧ (makeFrames true bigTruncatedRows exampleWorld exampleEnv).1
        = Except.ok [Frame.mk
            [City.mk (Num.fin 500) (Num.fin 500) (Num.fin 50) (Val.ofInt 10) (Val.ofInt 0)
              (some "#7fffff")]
            [Army.mk (Num.fin 750) (Num.fin 750) (some "#7fffff")]] :=
  ⟨by unfold Decodes; decide!, by decide, by decide!⟩

/-- C8, amended: truncation mode. With `TEST` set, for a non-empty feed of
well-formed rows whose numeric fields are below `2^52` in absolute value,
`makeFrames` returns exactly one frame: the frame of the specification for the
longest leading run of rows whose day is the first row's day, each coloured by
`getColor` called once per row of the run in feed order. -/
theorem makeFrames_truncated (rows : List String) (events : List Event)
    (world : World) (env : Env) (hdec : Decodes rows events) (hne : events ≠ [])
    (hsafe : ∀ ev ∈ events, ev.Safe) :
    (makeFrames true rows world env).1
      = Except.ok [specFrame world
          ((events.takeWhile (fun e => decide (e.day = (events.head hne).day))).zip
            (colorTrace env
              (events.takeWhile (fun e => decide (e.day = (events.head hne).day)))))] := by
  have hsd : ∀ ev ∈ events, ev.SafeDay := fun ev hev => (hsafe ev hev).1
  cases hdec with
  | nil => exact absurd rfl hne
  | @cons row ev rows' events' hrow htail =>
    have hdec : Decodes (row :: rows') (ev :: events') := List.Forall₂.cons hrow htail
    have hfr := loop_test world _ _ hdec hsafe [] Frame.empty ev.day env
    rw [makeFrames_decoded true row rows' ev events' world env hdec hsd, hfr]
    simp only [if_true, List.nil_append, List.length_singleton, Frame.empty_append,
      List.head_cons]
    rw [if_neg (by simp)]

/-- C8, amended, on the feed spanning days 5 to 9: one frame holding day 5's
city and army only. -/
theorem makeFrames_truncated_witness :
    (makeFrames true spanRows exampleWorld exampleEnv).1
      = Except.ok [Frame.mk
          [City.mk (Num.fin 500) (Num.fin 500) (Num.fin 50) (Val.ofInt 10) (Val.ofInt 0)
            (some "#7fffff")]
          [Army.mk (Num.fin 750) (Num.fin 750) (some "#7fffff")]]
    ∧ (makeFrames true spanRows exampleWorld exampleEnv).1
      = Except.ok [specFrame exampleWorld
          ((spanEvents.takeWhile (fun e => decide (e.day = 5))).zip
            (colorTrace exampleEnv (spanEvents.takeWhile (fun e => decide (e.day = 5)))))] :=
  ⟨by decide!,
   makeFrames_truncated spanRows spanEvents exampleWorld exampleEnv
    (by unfold Decodes; decide!) (by decide) (by simp [spanEvents, Event.Safe])⟩

/-- C5, refuted as stated: `makeFrames` returns frames for a feed whose only
row has a kind that is neither `city` nor `army`, for a feed whose only row has
one field, for a feed whose only row has an unparseable `x`, and for a feed
whose middle row has an unparseable day; none of these rows is well-formed. -/
theorem makeFrames_accepts_malformed :
    (decodeRow "5,0,0,10,1,0,village,0" = none
      ∧ (makeFrames false ["5,0,0,10,1,0,village,0"] exampleWorld exampleEnv).1
          = Except.ok [Frame.empty])
    ∧ (decodeRow "5" = none
      ∧ (makeFrames false ["5"] exampleWorld exampleEnv).1 = Except.ok [Frame.empty])
    ∧ (decodeRow "5,x,0,10,1,0,city,0" = none
      ∧ (makeFrames false ["5,x,0,10,1,0,city,0"] exampleWorld exampleEnv).1
          = Except.ok [Frame.mk
              [City.mk Num.nan (Num.fin 500) (Num.fin 50) (Val.ofInt 10) (Val.ofInt 0)
                (some "#7fffff")] []])
    ∧ (decodeRow "x,0,0,10,1,0,city,0" = none
      ∧ (makeFrames false ["5,0,0,10,1,0,city,0", "x,0,0,10,1,0,city,0",
            "7,0,0,10,1,0,city,0"] exampleWorld exampleEnv).1
          = Except.ok [
              Frame.mk [City.mk (Num.fin 500) (Num.fin 500) (Num.fin 50) (Val.ofInt 10)
                (Val.ofInt 0) (some "#7fffff")] [],
              Frame.mk [City.mk (Num.fin 500) (Num.fin 500) (Num.fin 50) (Val.ofInt 10)
                (Val.ofInt 0) (some "#7fffff")] [],
              Frame.mk [City.mk (Num.fin 500) (Num.fin 500) (Num.fin 50) (Val.ofInt 10)
                (Val.ofInt 0) (some "#7fffff")] []]) := by
  refine ⟨⟨by decide!, by decide!⟩, ⟨by decide!, by decide!⟩, ⟨by decide!, by decide!⟩,
    ⟨by decide!, by decide!⟩⟩

theorem strictNe_nan_right (a : Num) : Num.strictNe a Num.nan = true := by
  cases a <;> rfl

theorem add_sub_nan_left (a : Num) :
    Num.fadd (Num.fsub Num.nan a) (Num.fin 1) = Num.nan := by
  cases a <;> rfl

theorem add_sub_nan_right (a : Num) :
    Num.fadd (Num.fsub a Num.nan) (Num.fin 1) = Num.nan := by
  cases a <;> rfl

theorem parseInt_of_none (s : List Char) (h : parseIntZ s = none) : parseInt s = Num.nan := by
  unfold parseInt; rw [h]

/-- C5, amended: `makeFrames` raises its frame-count error for every non-empty
feed whose first row has a day field that `parseInt` does not read as an
integer, in both modes, and in normal mode also for every feed whose last row
has such a day field. -/
theorem makeFrames_fails_of_unparseable_day (TEST : Bool) (rows : List String)
    (world : World) (env : Env) (hne : rows ≠ [])
    (h : parseIntZ ((splitComma (rows.head hne).data).headD []) = none
      ∨ (TEST = false ∧ parseIntZ ((splitComma (rows.getLast hne).data).headD []) = none)) :
    ∃ n dayStart dayEnd, (makeFrames TEST rows world env).1
      = Except.error (MakeFramesError.frameCount n dayStart dayEnd) := by
  cases rows with
  | nil => exact absurd rfl hne
  | cons first more =>
    unfold makeFrames
    simp only [List.head_cons] at h
    rcases h with h | ⟨ht, h⟩
    · simp only [parseInt_of_none _ h]
      cases TEST with
      | true =>
        simp only [if_true, add_sub_nan_left, strictNe_nan_right]
        exact ⟨_, _, _, rfl⟩
      | false =>
        simp only [Bool.false_eq_true, if_false, add_sub_nan_right, strictNe_nan_right, if_true]
        exact ⟨_, _, _, rfl⟩
    · subst ht
      simp only [parseInt_of_none _ h, Bool.false_eq_true, if_false, add_sub_nan_left,
        strictNe_nan_right, if_true]
      exact ⟨_, _, _, rfl⟩

/-- C5, amended, on a one-row feed whose day field is `x`. -/
theorem makeFrames_fails_of_unparseable_day_witness :
    ∃ n dayStart dayEnd, (makeFrames false ["x,0,0,10,1,0,city,0"] exampleWorld exampleEnv).1
      = Except.error (MakeFramesError.frameCount n dayStart dayEnd) :=
  makeFrames_fails_of_unparseable_day false ["x,0,0,10,1,0,city,0"] exampleWorld exampleEnv
    (by decide) (Or.inl (by decide!))

end MovieMaker
